import Mathlib

/-!
# Verification of the pygame-markup-gui layout engines

Shallow embedding of the box-model / layout code of the repository
`pygame-markup-gui` (files `layout_engine.py`, `unified_layout_engine.py`,
`enhanced_css_engine.py`) and proofs about the claims of its specification.

Conventions of the embedding:
* Python `float` arithmetic is modelled by exact rational numbers.  All
  quantities appearing in the claims are small decimal numbers for which
  the two agree.  Internally the engine computes with `PyNum`, a fraction
  of integers (numerator, positive denominator, no normalisation) whose
  arithmetic the kernel evaluates directly, and every theorem reads the
  results through the value map `PyNum.toQ : PyNum → ℚ`.
* Python strings are modelled by Lean `String`; the character-scanner
  helpers of the source work on `List Char`.
* Python dictionaries of computed styles are modelled by association lists
  with the lookup of `dict.get` (`styleGet` below); keys are unique in all
  inputs considered.
* Code that can raise `ValueError` (bare `float(...)` / unguarded parsing)
  is modelled in the `Except PyError` monad; `try/except` blocks of the
  source become total functions returning the fallback value.
* The recursive layout walk is modelled with an explicit fuel argument so
  that all definitions are structurally recursive; `fuelExhausted` is never
  reached when the fuel is at least `4 * sizeE tree + 4` (the public
  wrappers supply such fuel, and the sufficiency is proved below).
* `print` diagnostics of the source are ignored (they do not affect
  geometry), and fields that never influence geometry are carried as plain
  data or omitted where noted.
-/

namespace PMG

/-! ## Exact fractions with computable arithmetic -/

/-- A rational value as used by the engine: an integer numerator over a
positive integer denominator, not normalised (so that all arithmetic is
plain integer arithmetic, which the kernel evaluates).  Python-float
arithmetic on the decimal values of the repository is exact and is
modelled by this type; `toQ` reads off the rational value. -/
structure PyNum : Type where
  num : Int
  den : Int
  den_pos : 0 < den

def PyNum.add (a b : PyNum) : PyNum :=
  ⟨a.num * b.den + b.num * a.den, a.den * b.den, mul_pos a.den_pos b.den_pos⟩

def PyNum.sub (a b : PyNum) : PyNum :=
  ⟨a.num * b.den - b.num * a.den, a.den * b.den, mul_pos a.den_pos b.den_pos⟩

def PyNum.mul (a b : PyNum) : PyNum :=
  ⟨a.num * b.num, a.den * b.den, mul_pos a.den_pos b.den_pos⟩

def PyNum.neg (a : PyNum) : PyNum := ⟨-a.num, a.den, a.den_pos⟩

/-- Division; a division by a zero value yields 0 (every division in the
source is guarded by a positivity test, so this case is never taken on the
executed paths). -/
def PyNum.div (a b : PyNum) : PyNum :=
  if hd : 0 < a.den * b.num then ⟨a.num * b.den, a.den * b.num, hd⟩
  else if hd' : a.den * b.num < 0 then ⟨-(a.num * b.den), -(a.den * b.num), by omega⟩
  else ⟨0, 1, one_pos⟩

instance : OfNat PyNum n := ⟨⟨(n : Int), 1, one_pos⟩⟩

instance : NatCast PyNum := ⟨fun n => ⟨(n : Int), 1, one_pos⟩⟩

instance : Neg PyNum := ⟨PyNum.neg⟩

instance : Add PyNum := ⟨PyNum.add⟩

instance : Sub PyNum := ⟨PyNum.sub⟩

instance : Mul PyNum := ⟨PyNum.mul⟩

instance : Div PyNum := ⟨PyNum.div⟩

instance : LT PyNum := ⟨fun a b => a.num * b.den < b.num * a.den⟩

instance : LE PyNum := ⟨fun a b => a.num * b.den ≤ b.num * a.den⟩

instance (a b : PyNum) : Decidable (a < b) :=
  inferInstanceAs (Decidable (a.num * b.den < b.num * a.den))

instance (a b : PyNum) : Decidable (a ≤ b) :=
  inferInstanceAs (Decidable (a.num * b.den ≤ b.num * a.den))

instance : Max PyNum := ⟨fun a b => if a ≤ b then b else a⟩

instance : Min PyNum := ⟨fun a b => if a ≤ b then a else b⟩

instance : DecidableEq PyNum := fun a b =>
  decidable_of_iff (a.num = b.num ∧ a.den = b.den) (by cases a; cases b; simp)

/-- Value equality of two fractions (Python `==` on floats). -/
def PyNum.eqv (a b : PyNum) : Bool := a.num * b.den == b.num * a.den

/-- The rational value of a `PyNum`. -/
def PyNum.toQ (a : PyNum) : ℚ := (a.num : ℚ) / (a.den : ℚ)

theorem PyNum.den_ne_zero (a : PyNum) : ((a.den : ℚ)) ≠ 0 := by
  exact_mod_cast Int.ne_of_gt a.den_pos

@[simp] theorem PyNum.toQ_mk (n d : Int) (h : 0 < d) :
    (PyNum.mk n d h).toQ = (n : ℚ) / (d : ℚ) := rfl

theorem PyNum.add_def (a b : PyNum) : a + b = a.add b := rfl
theorem PyNum.sub_def (a b : PyNum) : a - b = a.sub b := rfl
theorem PyNum.mul_def (a b : PyNum) : a * b = a.mul b := rfl
theorem PyNum.neg_def (a : PyNum) : -a = a.neg := rfl
theorem PyNum.div_def (a b : PyNum) : a / b = a.div b := rfl
theorem PyNum.lt_def (a b : PyNum) : a < b ↔ a.num * b.den < b.num * a.den := Iff.rfl
theorem PyNum.le_def (a b : PyNum) : a ≤ b ↔ a.num * b.den ≤ b.num * a.den := Iff.rfl
theorem PyNum.max_def (a b : PyNum) : max a b = if a ≤ b then b else a := rfl
theorem PyNum.min_def (a b : PyNum) : min a b = if a ≤ b then a else b := rfl

theorem PyNum.toQ_ofNat (n : ℕ) :
    (OfNat.ofNat n : PyNum).toQ = (n : ℚ) := by
  show ((n : Int) : ℚ) / ((1 : Int) : ℚ) = _
  push_cast
  simp

@[simp] theorem PyNum.toQ_zero : (0 : PyNum).toQ = 0 := by
  rw [toQ_ofNat]
  norm_num

@[simp] theorem PyNum.toQ_one : (1 : PyNum).toQ = 1 := by
  rw [toQ_ofNat]
  norm_num

@[simp] theorem PyNum.toQ_ofNat' (n : ℕ) [n.AtLeastTwo] :
    (no_index (OfNat.ofNat n) : PyNum).toQ = OfNat.ofNat n := by
  rw [toQ_ofNat]
  norm_cast

@[simp] theorem PyNum.toQ_natCast (n : ℕ) : (n : PyNum).toQ = n := by
  show ((n : Int) : ℚ) / ((1 : Int) : ℚ) = _
  push_cast
  simp

@[simp] theorem PyNum.toQ_neg (a : PyNum) : (-a).toQ = -a.toQ := by
  rw [neg_def, PyNum.neg, toQ_mk, toQ]
  push_cast
  rw [neg_div]

@[simp] theorem PyNum.toQ_add (a b : PyNum) : (a + b).toQ = a.toQ + b.toQ := by
  have ha := a.den_ne_zero
  have hb := b.den_ne_zero
  rw [add_def, PyNum.add, toQ_mk, toQ, toQ]
  push_cast
  field_simp

@[simp] theorem PyNum.toQ_sub (a b : PyNum) : (a - b).toQ = a.toQ - b.toQ := by
  have ha := a.den_ne_zero
  have hb := b.den_ne_zero
  rw [sub_def, PyNum.sub, toQ_mk, toQ, toQ]
  push_cast
  field_simp
  ring

@[simp] theorem PyNum.toQ_mul (a b : PyNum) : (a * b).toQ = a.toQ * b.toQ := by
  have ha := a.den_ne_zero
  have hb := b.den_ne_zero
  rw [mul_def, PyNum.mul, toQ_mk, toQ, toQ]
  push_cast
  field_simp

@[simp] theorem PyNum.toQ_div (a b : PyNum) : (a / b).toQ = a.toQ / b.toQ := by
  have ha := a.den_ne_zero
  have hb := b.den_ne_zero
  have hap : (0 : ℚ) < a.den := by exact_mod_cast a.den_pos
  rw [div_def, PyNum.div]
  rcases lt_trichotomy b.num 0 with hneg | hzero | hpos
  · have hd : ¬0 < a.den * b.num := by nlinarith [a.den_pos]
    have hd' : a.den * b.num < 0 := by nlinarith [a.den_pos]
    have hbq : (b.num : ℚ) ≠ 0 := by exact_mod_cast Int.ne_of_lt hneg
    rw [dif_neg hd, dif_pos hd', toQ_mk, toQ, toQ]
    push_cast
    rw [neg_div_neg_eq]
    field_simp
  · have hd : ¬0 < a.den * b.num := by simp [hzero]
    have hd' : ¬a.den * b.num < 0 := by simp [hzero]
    rw [dif_neg hd, dif_neg hd', toQ_mk, toQ, toQ, hzero]
    norm_num
  · have hd : 0 < a.den * b.num := mul_pos a.den_pos hpos
    have hbq : (b.num : ℚ) ≠ 0 := by exact_mod_cast Int.ne_of_gt hpos
    rw [dif_pos hd, toQ_mk, toQ, toQ]
    push_cast
    field_simp

theorem PyNum.lt_iff_toQ {a b : PyNum} : a < b ↔ a.toQ < b.toQ := by
  have ha : (0 : ℚ) < a.den := by exact_mod_cast a.den_pos
  have hb : (0 : ℚ) < b.den := by exact_mod_cast b.den_pos
  rw [toQ, toQ, div_lt_div_iff₀ ha hb, lt_def]
  constructor
  · intro h
    exact_mod_cast h
  · intro h
    exact_mod_cast h

theorem PyNum.le_iff_toQ {a b : PyNum} : a ≤ b ↔ a.toQ ≤ b.toQ := by
  have ha : (0 : ℚ) < a.den := by exact_mod_cast a.den_pos
  have hb : (0 : ℚ) < b.den := by exact_mod_cast b.den_pos
  rw [toQ, toQ, div_le_div_iff₀ ha hb, le_def]
  constructor
  · intro h
    exact_mod_cast h
  · intro h
    exact_mod_cast h

theorem PyNum.eqv_iff_toQ {a b : PyNum} : a.eqv b = true ↔ a.toQ = b.toQ := by
  have ha : ((a.den : ℚ)) ≠ 0 := a.den_ne_zero
  have hb : ((b.den : ℚ)) ≠ 0 := b.den_ne_zero
  rw [toQ, toQ, div_eq_div_iff ha hb, eqv, beq_iff_eq]
  constructor
  · intro h
    exact_mod_cast h
  · intro h
    exact_mod_cast h

@[simp] theorem PyNum.toQ_max (a b : PyNum) : (max a b).toQ = max a.toQ b.toQ := by
  rw [max_def]
  by_cases h : a ≤ b
  · rw [if_pos h, max_eq_right (le_iff_toQ.mp h)]
  · have h' : b.toQ ≤ a.toQ :=
      le_of_not_le (fun hc => h (le_iff_toQ.mpr hc))
    rw [if_neg h, max_eq_left h']

@[simp] theorem PyNum.toQ_min (a b : PyNum) : (min a b).toQ = min a.toQ b.toQ := by
  rw [min_def]
  by_cases h : a ≤ b
  · rw [if_pos h, min_eq_left (le_iff_toQ.mp h)]
  · have h' : b.toQ ≤ a.toQ :=
      le_of_not_le (fun hc => h (le_iff_toQ.mpr hc))
    rw [if_neg h, min_eq_right h']

/-- Build the fraction `n / 10^k` (used for decimal literals). -/
def PyNum.decimal (n : Int) (k : Nat) : PyNum :=
  ⟨n, (10 : Int) ^ k, pow_pos (by omega) k⟩

@[simp] theorem PyNum.toQ_decimal (n : Int) (k : Nat) :
    (PyNum.decimal n k).toQ = (n : ℚ) / (10 : ℚ) ^ k := by
  rw [decimal, toQ_mk]
  push_cast
  ring

/-! ## Python primitives: characters, strings, numbers -/

/-- ASCII whitespace recognised by Python's `str.split()` / `str.strip()`. -/
def pyIsSpace (c : Char) : Bool :=
  c = ' ' ∨ c = '\t' ∨ c = '\n' ∨ c = '\r' ∨ c = '\x0b' ∨ c = '\x0c'

/-- Python `str.strip()` on a character list. -/
def stripChars (cs : List Char) : List Char :=
  ((cs.dropWhile pyIsSpace).reverse.dropWhile pyIsSpace).reverse

/-- Python `str.strip()`. -/
def pyStrip (s : String) : String := String.mk (stripChars s.toList)

/-- Numeric value of a decimal digit character (used by `int(...)` and
`float(...)`). -/
def digitVal (c : Char) : Nat :=
  if c = '0' then 0 else if c = '1' then 1 else if c = '2' then 2
  else if c = '3' then 3 else if c = '4' then 4 else if c = '5' then 5
  else if c = '6' then 6 else if c = '7' then 7 else if c = '8' then 8
  else if c = '9' then 9 else 0

/-- Value of a string of decimal digits, `int(s)` for `s.isdigit()` strings. -/
def digitsToNat (ds : List Char) : Nat :=
  ds.foldl (fun n c => 10 * n + digitVal c) 0

/-- Python `str.isdigit()` (restricted to ASCII digits; no style value in the
repository uses non-ASCII digit characters). -/
def pyIsDigitStr (s : String) : Bool :=
  ¬s.toList.isEmpty ∧ s.toList.all Char.isDigit

/-- Suffix test, Python `str.endswith(suf)`. -/
def endsWithStr (s suf : String) : Bool :=
  suf.toList.reverse.isPrefixOf s.toList.reverse

/-- Python slice `s[:-n]` (drop the last `n` characters). -/
def dropRightStr (s : String) (n : Nat) : String :=
  String.mk (s.toList.take (s.toList.length - n))

/-- Python string length `len(s)`. -/
def pyLen (s : String) : Nat := s.toList.length

/-- Substring containment, Python `needle in hay`. -/
def containsChars (hay needle : List Char) : Bool :=
  match hay with
  | [] => needle.isEmpty
  | _ :: t => needle.isPrefixOf hay || containsChars t needle

/-- Substring containment on strings. -/
def containsStr (hay needle : String) : Bool :=
  containsChars hay.toList needle.toList

/-- Helper of `pySplitWs`: split a character list on whitespace runs,
discarding empty fragments (`cur` is the current fragment, reversed). -/
def splitWsAux : List Char → List Char → List (List Char)
  | [], cur => if cur.isEmpty then [] else [cur.reverse]
  | c :: rest, cur =>
    if pyIsSpace c then
      if cur.isEmpty then splitWsAux rest []
      else cur.reverse :: splitWsAux rest []
    else splitWsAux rest (c :: cur)

/-- Python `str.split()` with no argument: split on whitespace runs, never
producing empty parts. -/
def pySplitWs (s : String) : List String :=
  (splitWsAux s.toList []).map (fun l => String.mk l)

/-- Helper of `pySplitComma`: split on `','` keeping empty parts. -/
def splitCommaAux : List Char → List Char → List (List Char)
  | [], cur => [cur.reverse]
  | c :: rest, cur =>
    if c = ',' then cur.reverse :: splitCommaAux rest []
    else splitCommaAux rest (c :: cur)

/-- Python `str.split(',')`: split on every comma, keeping empty parts. -/
def pySplitComma (s : String) : List String :=
  (splitCommaAux s.toList []).map (fun l => String.mk l)

/-- Fuelled core of `pyDeleteSub` (fuel bounds the scan length). -/
def deleteSubF : Nat → List Char → List Char → List Char
  | 0, cs, _ => cs
  | _ + 1, [], _ => []
  | f + 1, c :: t, needle =>
    if needle.isPrefixOf (c :: t) ∧ ¬needle.isEmpty then
      deleteSubF f ((c :: t).drop needle.length) needle
    else c :: deleteSubF f t needle

/-- Python `str.replace(old, new)` with `new = ""`: delete every occurrence
of `old` (only this form is used, by `angle_str.replace('deg', '')`). -/
def pyDeleteSub (s old : String) : String :=
  String.mk (deleteSubF s.toList.length s.toList old.toList)

/-- Core of Python `float(...)` on a stripped character list: an optional
sign, a decimal mantissa with at least one digit, and an optional exponent.
(`inf`/`nan`, underscores in literals and non-ASCII digits are not modelled;
no style value under study uses them.) -/
def pyFloatCore (cs : List Char) : Option PyNum :=
  let signRest : PyNum × List Char :=
    match cs with
    | '+' :: r => (1, r)
    | '-' :: r => (-1, r)
    | r => (1, r)
  let sign := signRest.1
  let cs1 := signRest.2
  let ip := cs1.takeWhile Char.isDigit
  let r1 := cs1.dropWhile Char.isDigit
  let fpRest : List Char × List Char :=
    match r1 with
    | '.' :: r => (r.takeWhile Char.isDigit, r.dropWhile Char.isDigit)
    | r => ([], r)
  let fp := fpRest.1
  let r2 := fpRest.2
  if ip.isEmpty ∧ fp.isEmpty then none
  else
    let mant : PyNum := (digitsToNat ip : PyNum) + PyNum.decimal (digitsToNat fp) fp.length
    match r2 with
    | [] => some (sign * mant)
    | e :: r3 =>
      if e = 'e' ∨ e = 'E' then
        let esignRest : Bool × List Char :=
          match r3 with
          | '+' :: r => (true, r)
          | '-' :: r => (false, r)
          | r => (true, r)
        let ed := esignRest.2.takeWhile Char.isDigit
        let r5 := esignRest.2.dropWhile Char.isDigit
        if ed.isEmpty ∨ ¬r5.isEmpty then none
        else if esignRest.1 then
          some (sign * mant * PyNum.decimal ((10 : Int) ^ digitsToNat ed) 0)
        else
          some (sign * mant * PyNum.decimal 1 (digitsToNat ed))
      else none

/-- Python `float(s)`: `none` models a raised `ValueError`. -/
def pyFloat (s : String) : Option PyNum := pyFloatCore (stripChars s.toList)

/-- Errors of the embedding: `valueError` models a Python `ValueError`
escaping from a bare `float(...)` call; `fuelExhausted` is the artefact of
the fuelled recursion and is unreachable from the public wrappers. -/
inductive PyError : Type where
  | valueError : PyError
  | fuelExhausted : PyError
deriving DecidableEq

instance {ε α : Type} [DecidableEq ε] [DecidableEq α] : DecidableEq (Except ε α)
  | .ok a, .ok b => decidable_of_iff (a = b) (by simp)
  | .error e, .error f => decidable_of_iff (e = f) (by simp)
  | .ok _, .error _ => isFalse (fun h => Except.noConfusion h)
  | .error _, .ok _ => isFalse (fun h => Except.noConfusion h)

/-- A bare Python `float(...)` call: raises (`Except.error`) on bad input. -/
def tryFloat (s : String) : Except PyError PyNum :=
  match pyFloat s with
  | some q => .ok q
  | none => .error .valueError

@[simp] theorem except_pure_eq_ok {ε α : Type} (a : α) :
    (pure a : Except ε α) = Except.ok a := rfl

@[simp] theorem except_ok_bind {ε α β : Type} (a : α) (f : α → Except ε β) :
    (Except.ok a : Except ε α) >>= f = f a := rfl

@[simp] theorem except_error_bind {ε α β : Type} (e : ε) (f : α → Except ε β) :
    (Except.error e : Except ε α) >>= f = Except.error e := rfl

@[simp] theorem except_map_ok {ε α β : Type} (f : α → β) (a : α) :
    (f <$> (Except.ok a : Except ε α)) = Except.ok (f a) := rfl

@[simp] theorem except_map_error {ε α β : Type} (f : α → β) (e : ε) :
    (f <$> (Except.error e : Except ε α)) = Except.error e := rfl

/-! ## Styles and elements -/

/-- A computed-style map: CSS property name → string value
(`element.computed_style`). -/
abbrev Style := List (String × String)

/-- Python `style.get(k)`. -/
def styleGet (s : Style) (k : String) : Option String :=
  (s.find? (fun p => p.1 == k)).map (fun p => p.2)

/-- Python `style.get(k, d)`. -/
def styleGetD (s : Style) (k d : String) : String := (styleGet s k).getD d

/-- Python `k in style`. -/
def styleHas (s : Style) (k : String) : Bool := (styleGet s k).isSome

/-- Python truthiness of `style.get(k)`: present and non-empty. -/
def styleTruthy (s : Style) (k : String) : Bool :=
  match styleGet s k with
  | some v => ¬v.isEmpty
  | none => false

/-- The check `element.parent and 'file-list' in
str(element.parent.computed_style.get('class', ''))` of
`_calculate_auto_height`. -/
def parentFileList (parentStyle : Option Style) : Bool :=
  match parentStyle with
  | some ps => containsStr (styleGetD ps "class" "") "file-list"
  | none => false

/-- The element tree consumed by the engines (`HTMLElement` of
`html_engine.py`): tag, text content, computed style, ordered children.
The `parent` back-reference of the source is supplied to the embedding as
an explicit `Option Style` argument (the parent's computed style) wherever
the source consults `element.parent`. -/
inductive HTMLElement : Type where
  | mk (tag : String) (text_content : String) (computed_style : Style)
       (children : List HTMLElement)

def HTMLElement.tag : HTMLElement → String
  | .mk t _ _ _ => t

def HTMLElement.text_content : HTMLElement → String
  | .mk _ x _ _ => x

def HTMLElement.computed_style : HTMLElement → Style
  | .mk _ _ s _ => s

def HTMLElement.children : HTMLElement → List HTMLElement
  | .mk _ _ _ cs => cs

mutual

/-- Size of an element tree (drives the fuel of the wrappers). -/
def sizeE : HTMLElement → Nat
  | .mk _ _ _ cs => 1 + sizeL cs

/-- Size of a list of element trees. -/
def sizeL : List HTMLElement → Nat
  | [] => 0
  | c :: cs => 1 + sizeE c + sizeL cs

end

/-! ## Base engine: `layout_engine.py` -/

/-- `LayoutBox` of `html_engine.py` (the geometry fields used by the base
`LayoutEngine`). -/
structure LayoutBox : Type where
  x : PyNum
  y : PyNum
  width : PyNum
  height : PyNum
  margin_top : PyNum
  margin_right : PyNum
  margin_bottom : PyNum
  margin_left : PyNum
  padding_top : PyNum
  padding_right : PyNum
  padding_bottom : PyNum
  padding_left : PyNum
  border_width : PyNum

/-- A freshly constructed `LayoutBox()` (all fields zero). -/
def LayoutBox.zero : LayoutBox := ⟨0, 0, 0, 0, 0, 0, 0, 0, 0, 0, 0, 0, 0⟩

/-- Engine configuration (`viewport_width`, `viewport_height` of the
engine constructors). -/
structure Engine : Type where
  viewport_width : PyNum
  viewport_height : PyNum

/-- `LayoutEngine._parse_length(value, container_size)`: parse a CSS length.
The `try/except` of the source makes every unparseable value resolve to 0.
Note the source tests the suffix `em` before `rem`, so `rem` values fall
into the `em` branch, fail to parse (`float('…r')` raises, caught by the
`except`) and resolve to 0, exactly as in Python. -/
def parse_length (value : String) (container_size : PyNum) : PyNum :=
  if value.isEmpty ∨ value = "auto" then 0
  else if endsWithStr value "px" then (pyFloat (dropRightStr value 2)).getD 0
  else if endsWithStr value "%" then
    match pyFloat (dropRightStr value 1) with
    | some f => container_size * (f / 100)
    | none => 0
  else if endsWithStr value "em" then
    ((pyFloat (dropRightStr value 2)).map (fun f => f * 16)).getD 0
  else if endsWithStr value "rem" then
    ((pyFloat (dropRightStr value 3)).map (fun f => f * 16)).getD 0
  else (pyFloat value).getD 0

/-- `LayoutEngine._parse_box_value(value, container_size)`: margin/padding
shorthand → `(top, right, bottom, left)`.  The source handles 1, 2 and 4
parts and returns `(0, 0, 0, 0)` for every other count (including 3). -/
def parse_box_value (value : String) (container_size : PyNum) :
    PyNum × PyNum × PyNum × PyNum :=
  match pySplitWs value with
  | [a] =>
    let v := parse_length a container_size
    (v, v, v, v)
  | [a, b] =>
    let v := parse_length a container_size
    let h := parse_length b container_size
    (v, h, v, h)
  | [a, b, c, d] =>
    (parse_length a container_size, parse_length b container_size,
     parse_length c container_size, parse_length d container_size)
  | _ => (0, 0, 0, 0)

/-- `LayoutEngine._calculate_auto_height(element, container_height)`.
`parentStyle` stands for `element.parent.computed_style` (or `none` when
the element has no parent). -/
def calculate_auto_height (eng : Engine) (parentStyle : Option Style)
    (e : HTMLElement) (container_height : PyNum) : PyNum :=
  let style := e.computed_style
  if e.tag = "html" then eng.viewport_height
  else if e.tag = "body" then
    let margin_top := parse_length (styleGetD style "margin-top" "0") 0
    let margin_bottom := parse_length (styleGetD style "margin-bottom" "0") 0
    max 0 (container_height - margin_top - margin_bottom)
  else if e.tag = "div" ∧ ¬(pyStrip e.text_content).isEmpty ∧
      parentFileList parentStyle then
    42
  else if ¬e.text_content.isEmpty ∧ ¬(pyStrip e.text_content).isEmpty then
    let font_size := parse_length (styleGetD style "font-size" "16px") 0
    let line_height_val := styleGetD style "line-height" "1.2"
    let line_height :=
      if endsWithStr line_height_val "px" then parse_length line_height_val 0
      else
        match pyFloat line_height_val with
        | some v => v * font_size
        | none => font_size * PyNum.decimal 12 1
    let padding_top := parse_length (styleGetD style "padding-top" "0") 0
    let padding_bottom := parse_length (styleGetD style "padding-bottom" "0") 0
    let pts :=
      if styleTruthy style "padding" ∧ padding_top.eqv 0 then
        let pv := parse_box_value (styleGetD style "padding" "0") 0
        (pv.1, pv.2.2.1)
      else (padding_top, padding_bottom)
    max (line_height + pts.1 + pts.2) 30
  else if e.tag = "div" ∨ e.tag = "section" ∨ e.tag = "main" ∨
      e.tag = "aside" ∨ e.tag = "article" then
    let has_background := styleTruthy style "background" ∨ styleTruthy style "background-color"
    let has_padding := styleTruthy style "padding" ∨ styleTruthy style "padding-top"
    if has_background ∨ has_padding then min 100 (container_height * PyNum.decimal 25 2)
    else 40
  else if e.tag = "h1" then 50 else if e.tag = "h2" then 45
  else if e.tag = "h3" then 40 else if e.tag = "h4" then 35
  else if e.tag = "h5" then 30 else if e.tag = "h6" then 25
  else if e.tag = "button" then 40 else if e.tag = "input" then 35
  else if e.tag = "nav" then 60 else if e.tag = "header" then 100
  else if e.tag = "footer" then 60 else if e.tag = "aside" then 300
  else if e.tag = "main" then 400 else if e.tag = "section" then 250
  else if e.tag = "p" then 30 else if e.tag = "span" then 25
  else 30

/-- `LayoutEngine._calculate_box_model(element, container_width,
container_height)`: margins, padding, border and the width/height of the
element's box (position fields are filled by the caller).  `parentStyle`
models `element.parent.computed_style`. -/
def calculate_box_model (eng : Engine) (parentStyle : Option Style)
    (e : HTMLElement) (container_width container_height : PyNum) : LayoutBox :=
  let style := e.computed_style
  let mt0 := parse_length (styleGetD style "margin-top" "0") container_width
  let mr0 := parse_length (styleGetD style "margin-right" "0") container_width
  let mb0 := parse_length (styleGetD style "margin-bottom" "0") container_width
  let ml0 := parse_length (styleGetD style "margin-left" "0") container_width
  let margins :=
    if styleHas style "margin" then
      parse_box_value (styleGetD style "margin" "0") container_width
    else (mt0, mr0, mb0, ml0)
  let pt0 := parse_length (styleGetD style "padding-top" "0") container_width
  let pr0 := parse_length (styleGetD style "padding-right" "0") container_width
  let pb0 := parse_length (styleGetD style "padding-bottom" "0") container_width
  let pl0 := parse_length (styleGetD style "padding-left" "0") container_width
  let paddings :=
    if styleHas style "padding" then
      parse_box_value (styleGetD style "padding" "0") container_width
    else (pt0, pr0, pb0, pl0)
  let border_width := parse_length (styleGetD style "border-width" "0") container_width
  let widthv := styleGetD style "width" "auto"
  let heightv := styleGetD style "height" "auto"
  let parent_display :=
    match parentStyle with
    | some ps => styleGetD ps "display" "block"
    | none => "block"
  let width :=
    if widthv = "auto" then
      if parent_display = "flex" then
        -- the row and column branches of the source compute the same value
        max 0 (container_width - margins.2.2.2 - margins.2.1)
      else if e.tag = "button" ∧ ¬e.text_content.isEmpty then
        let text_width := (pyLen e.text_content : PyNum) * 8
        let min_width := text_width + paddings.2.2.2 + paddings.2.1 + 20
        let available_width := container_width - margins.2.2.2 - margins.2.1
        max min_width (min available_width 150)
      else max 0 (container_width - margins.2.2.2 - margins.2.1)
    else parse_length widthv container_width
  let height :=
    if heightv = "auto" then
      if parent_display = "flex" then
        max 0 (container_height - margins.1 - margins.2.2.1)
      else calculate_auto_height eng parentStyle e container_height
    else parse_length heightv container_height
  { x := 0, y := 0, width := width, height := height,
    margin_top := margins.1, margin_right := margins.2.1,
    margin_bottom := margins.2.2.1, margin_left := margins.2.2.2,
    padding_top := paddings.1, padding_right := paddings.2.1,
    padding_bottom := paddings.2.2.1, padding_left := paddings.2.2.2,
    border_width := border_width }

/-- `LayoutEngine._calculate_child_height(element, available_width,
remaining_height)` (block layout): explicit height, else the auto height
capped by the remaining space.  (The `available_width` parameter of the
source is unused by its body and omitted here.) -/
def calculate_child_height (eng : Engine) (parentStyle : Option Style)
    (e : HTMLElement) (remaining_height : PyNum) : PyNum :=
  let heightv := styleGetD e.computed_style "height" "auto"
  if heightv ≠ "auto" then parse_length heightv remaining_height
  else min (calculate_auto_height eng parentStyle e remaining_height) remaining_height

/-- A flex item record of `_layout_flex_row` / `_layout_flex_column`
(the dict `{'flex_grow': …, 'flex_shrink': …, 'base_width': …,
'final_width': …}`, with `base_main`/`final_main` standing for the
`base_width`/`final_width` or `base_height`/`final_height` entries). -/
structure FlexItemR : Type where
  flex_grow : PyNum
  flex_shrink : PyNum
  base_main : PyNum
  final_main : PyNum

/-- The flex-property parsing shared by the per-child loops of
`_layout_flex_row` and `_layout_flex_column`: `flex-grow`, `flex-shrink`,
`flex-basis`, with the `flex` shorthand overriding them.  Each numeric
parse is a bare Python `float(...)` that raises on garbage. -/
def flex_props (cs : Style) : Except PyError (PyNum × PyNum × String) := do
  let g0 ← tryFloat (styleGetD cs "flex-grow" "0")
  let s0 ← tryFloat (styleGetD cs "flex-shrink" "1")
  let b0 := styleGetD cs "flex-basis" "auto"
  match styleGet cs "flex" with
  | none => pure (g0, s0, b0)
  | some fv =>
    let parts := pySplitWs fv
    do
      let g1 ← if parts.length ≥ 1 then tryFloat (parts.getD 0 "") else pure g0
      let s1 ← if parts.length ≥ 2 then tryFloat (parts.getD 1 "") else pure s0
      let b1 := if parts.length ≥ 3 then parts.getD 2 "" else b0
      pure (g1, s1, b1)

/-- The per-child body of the collection loop of
`LayoutEngine._layout_flex_row`: flex properties plus the base width. -/
def flex_row_item (child : HTMLElement) (available_width : PyNum) :
    Except PyError FlexItemR := do
  let cs := child.computed_style
  let gsb ← flex_props cs
  let flex_grow := gsb.1
  let flex_basis := gsb.2.2
  let base_width ←
    if flex_basis ≠ "auto" then
      if endsWithStr flex_basis "px" then tryFloat (dropRightStr flex_basis 2)
      else if flex_basis = "0%" ∨ flex_basis = "0" then pure 0
      else pure 0
    else if styleGetD cs "width" "auto" ≠ "auto" then
      pure (parse_length (styleGetD cs "width" "auto") available_width)
    else if child.tag = "button" ∧ ¬child.text_content.isEmpty then
      pure ((pyLen child.text_content : PyNum) * 8 + 40)
    else if 0 < flex_grow then pure 0
    else pure 100
  pure ⟨flex_grow, gsb.2.1, base_width, base_width⟩

/-- The per-child body of the collection loop of
`LayoutEngine._layout_flex_column`: flex properties plus the base height.
`pstyle` is the flex container's style (the child's parent). -/
def flex_col_item (eng : Engine) (pstyle : Style) (child : HTMLElement)
    (available_height : PyNum) : Except PyError FlexItemR := do
  let cs := child.computed_style
  let gsb ← flex_props cs
  let flex_basis := gsb.2.2
  let base_height ←
    if flex_basis ≠ "auto" ∧ endsWithStr flex_basis "px" then
      tryFloat (dropRightStr flex_basis 2)
    else if styleGetD cs "height" "auto" ≠ "auto" then
      pure (parse_length (styleGetD cs "height" "auto") available_height)
    else pure (calculate_auto_height eng (some pstyle) child available_height)
  pure ⟨gsb.1, gsb.2.1, base_height, base_height⟩

/-- `total_fixed_width`/`total_fixed_height` accumulated by the collection
loops: base sizes of the items with `flex_grow == 0` only. -/
def flex_total_fixed (items : List FlexItemR) : PyNum :=
  items.foldl (fun a it => if it.flex_grow.eqv 0 then a + it.base_main else a) 0

/-- `total_flex_grow` accumulated by the collection loops: grow factors of
the items with `flex_grow ≠ 0`. -/
def flex_total_grow (items : List FlexItemR) : PyNum :=
  items.foldl (fun a it => if it.flex_grow.eqv 0 then a else a + it.flex_grow) 0

/-- Step 2 of `LayoutEngine._layout_flex_row`: distribute the remaining
space; each growing item's final size is its base size **plus** its share. -/
def distribute_grow_row (items : List FlexItemR) (remaining total_grow : PyNum) :
    List FlexItemR :=
  if 0 < total_grow ∧ 0 < remaining then
    let flex_unit := remaining / total_grow
    items.map (fun it =>
      if 0 < it.flex_grow then
        { it with final_main := it.base_main + it.flex_grow * flex_unit }
      else it)
  else items

/-- Step 2 of `LayoutEngine._layout_flex_column`: distribute the remaining
space; each growing item's final size is **replaced by** its share
(`item['final_height'] = item['flex_grow'] * flex_unit`). -/
def distribute_grow_column (items : List FlexItemR) (remaining total_grow : PyNum) :
    List FlexItemR :=
  if 0 < total_grow ∧ 0 < remaining then
    let flex_unit := remaining / total_grow
    items.map (fun it =>
      if 0 < it.flex_grow then { it with final_main := it.flex_grow * flex_unit }
      else it)
  else items

/-- Step 3 of both flex layouts: proportional shrink when the used size
overflows the available space, floored at 0. -/
def shrink_items (items : List FlexItemR) (available : PyNum) : List FlexItemR :=
  let total_used := items.foldl (fun a it => a + it.final_main) 0
  if available < total_used then
    let overflow := total_used - available
    let total_shrink := items.foldl (fun a it => a + it.flex_shrink * it.final_main) 0
    if 0 < total_shrink then
      items.map (fun it =>
        let shrink_amount := it.flex_shrink * it.final_main / total_shrink * overflow
        { it with final_main := max 0 (it.final_main - shrink_amount) })
    else items
  else items

/-- Collection loop of `_layout_flex_row` over all children. -/
def flex_row_items : List HTMLElement → PyNum → Except PyError (List FlexItemR)
  | [], _ => pure []
  | c :: cs, available_width => do
    let it ← flex_row_item c available_width
    let rest ← flex_row_items cs available_width
    pure (it :: rest)

/-- Collection loop of `_layout_flex_column` over all children. -/
def flex_col_items (eng : Engine) (pstyle : Style) :
    List HTMLElement → PyNum → Except PyError (List FlexItemR)
  | [], _ => pure []
  | c :: cs, available_height => do
    let it ← flex_col_item eng pstyle c available_height
    let rest ← flex_col_items eng pstyle cs available_height
    pure (it :: rest)

/-- The output tree of a layout pass: one `LayoutBox` per visited element
(`element.layout_box`), children in source order. -/
inductive Laid : Type where
  | mk (box : LayoutBox) (children : List Laid)

def Laid.box : Laid → LayoutBox
  | .mk b _ => b

def Laid.children : Laid → List Laid
  | .mk _ cs => cs

mutual

/-- `LayoutEngine.layout(element, container_width, container_height,
is_root, parent_x, parent_y)`, fuelled.  `parentStyle` models
`element.parent.computed_style`. -/
def layoutF (eng : Engine) : Nat → Option Style → HTMLElement → PyNum → PyNum →
    Bool → PyNum → PyNum → Except PyError Laid
  | 0, _, _, _, _, _, _, _ => .error .fuelExhausted
  | f + 1, ps, e, container_width, container_height, is_root, parent_x, parent_y =>
    let box :=
      if is_root then
        let b0 := { LayoutBox.zero with
                    width := container_width, height := container_height }
        let style := e.computed_style
        let b1 :=
          if styleTruthy style "padding" then
            let p := parse_box_value (styleGetD style "padding" "0") container_width
            { b0 with padding_top := p.1, padding_right := p.2.1,
                      padding_bottom := p.2.2.1, padding_left := p.2.2.2 }
          else b0
        if styleTruthy style "margin" then
          let m := parse_box_value (styleGetD style "margin" "0") container_width
          { b1 with margin_top := m.1, margin_right := m.2.1,
                    margin_bottom := m.2.2.1, margin_left := m.2.2.2 }
        else b1
      else
        let b := calculate_box_model eng ps e container_width container_height
        { b with x := parent_x + b.margin_left, y := parent_y + b.margin_top }
    let child_container_width := box.width - box.padding_left - box.padding_right
    let child_container_height := box.height - box.padding_top - box.padding_bottom
    do
      let kids ← layout_childrenF eng f e box child_container_width child_container_height
      pure (Laid.mk box kids)

/-- `LayoutEngine._layout_children(element, available_width,
available_height)`: dispatch on the display type. -/
def layout_childrenF (eng : Engine) : Nat → HTMLElement → LayoutBox → PyNum → PyNum →
    Except PyError (List Laid)
  | 0, _, _, _, _ => .error .fuelExhausted
  | f + 1, e, box, available_width, available_height =>
    if e.children.isEmpty then pure []
    else
      let style := e.computed_style
      let display := styleGetD style "display" "block"
      let has_inline_children := e.children.any (fun c =>
        let d := styleGetD c.computed_style "display" "block"
        d = "inline" ∨ d = "inline-block")
      if display = "flex" then
        if styleGetD style "flex-direction" "row" = "row" then
          layout_flex_rowF eng f e box available_width available_height
        else
          layout_flex_columnF eng f e box available_width available_height
      else if has_inline_children then
        inline_goF eng f e.computed_style e.children available_width available_height
          (box.x + box.padding_left) (box.x + box.padding_left)
          (box.y + box.padding_top) 0
      else
        block_goF eng f e.computed_style e.children available_width
          (box.x + box.padding_left) (box.y + box.padding_top) available_height

/-- `LayoutEngine._layout_flex_row(element, available_width,
available_height)`: collect items, distribute grow/shrink, position. -/
def layout_flex_rowF (eng : Engine) : Nat → HTMLElement → LayoutBox → PyNum → PyNum →
    Except PyError (List Laid)
  | 0, _, _, _, _ => .error .fuelExhausted
  | f + 1, e, box, available_width, available_height =>
    if e.children.isEmpty then pure []
    else do
      let items0 ← flex_row_items e.children available_width
      let remaining_width := available_width - flex_total_fixed items0
      let items1 := distribute_grow_row items0 remaining_width (flex_total_grow items0)
      let items2 := shrink_items items1 available_width
      flex_row_placeF eng f e.computed_style e.children
        (items2.map (fun it => it.final_main)) available_height
        (box.y + box.padding_top) (box.x + box.padding_left)

/-- Step 4 of `_layout_flex_row`: lay out each child with its final width,
advancing `current_x`. -/
def flex_row_placeF (eng : Engine) : Nat → Style → List HTMLElement →
    List PyNum → PyNum → PyNum → PyNum → Except PyError (List Laid)
  | 0, _, _, _, _, _, _ => .error .fuelExhausted
  | _ + 1, _, [], _, _, _, _ => pure []
  | f + 1, pstyle, c :: cs, ws, available_height, content_y, current_x => do
    let w := ws.headD 0
    let t ← layoutF eng f (some pstyle) c w available_height false current_x content_y
    let ts ← flex_row_placeF eng f pstyle cs ws.tail available_height content_y (current_x + w)
    pure (t :: ts)

/-- `LayoutEngine._layout_flex_column(element, available_width,
available_height)`. -/
def layout_flex_columnF (eng : Engine) : Nat → HTMLElement → LayoutBox → PyNum → PyNum →
    Except PyError (List Laid)
  | 0, _, _, _, _ => .error .fuelExhausted
  | f + 1, e, box, available_width, available_height =>
    if e.children.isEmpty then pure []
    else do
      let items0 ← flex_col_items eng e.computed_style e.children available_height
      let remaining_height := available_height - flex_total_fixed items0
      let items1 := distribute_grow_column items0 remaining_height (flex_total_grow items0)
      let items2 := shrink_items items1 available_height
      flex_col_placeF eng f e.computed_style e.children
        (items2.map (fun it => it.final_main)) available_width
        (box.x + box.padding_left) (box.y + box.padding_top)

/-- Step 4 of `_layout_flex_column`: lay out each child with its final
height, advancing `current_y`. -/
def flex_col_placeF (eng : Engine) : Nat → Style → List HTMLElement →
    List PyNum → PyNum → PyNum → PyNum → Except PyError (List Laid)
  | 0, _, _, _, _, _, _ => .error .fuelExhausted
  | _ + 1, _, [], _, _, _, _ => pure []
  | f + 1, pstyle, c :: cs, hs, available_width, content_x, current_y => do
    let h := hs.headD 0
    let t ← layoutF eng f (some pstyle) c available_width h false content_x current_y
    let ts ← flex_col_placeF eng f pstyle cs hs.tail available_width content_x (current_y + h)
    pure (t :: ts)

/-- `LayoutEngine._layout_block_children`: stack children vertically,
advancing by `margin_top + height + margin_bottom` of the laid-out child
and shrinking the remaining height (floored at 0). -/
def block_goF (eng : Engine) : Nat → Style → List HTMLElement → PyNum → PyNum →
    PyNum → PyNum → Except PyError (List Laid)
  | 0, _, _, _, _, _, _ => .error .fuelExhausted
  | _ + 1, _, [], _, _, _, _ => pure []
  | f + 1, pstyle, c :: cs, available_width, content_x, current_y, remaining_height => do
    let child_height := calculate_child_height eng (some pstyle) c remaining_height
    let t ← layoutF eng f (some pstyle) c available_width child_height false content_x current_y
    let child_used := t.box.margin_top + t.box.height + t.box.margin_bottom
    let ts ← block_goF eng f pstyle cs available_width content_x
      (current_y + child_used) (max 0 (remaining_height - child_used))
    pure (t :: ts)

/-- `LayoutEngine._layout_inline_children`: place children left to right
with wrapping; block children force line breaks. -/
def inline_goF (eng : Engine) : Nat → Style → List HTMLElement → PyNum → PyNum →
    PyNum → PyNum → PyNum → PyNum → Except PyError (List Laid)
  | 0, _, _, _, _, _, _, _, _ => .error .fuelExhausted
  | _ + 1, _, [], _, _, _, _, _, _ => pure []
  | f + 1, pstyle, c :: cs, available_width, available_height, content_x,
      current_x, current_y, line_height =>
    let used_width := current_x - content_x
    let remaining_width := max 0 (available_width - used_width)
    let cstyle := c.computed_style
    let child_display := styleGetD cstyle "display" "block"
    if child_display = "inline-block" then
      let child_width := styleGetD cstyle "width" "auto"
      let natural_width :=
        if child_width = "auto" then
          if c.tag = "button" ∧ ¬c.text_content.isEmpty then
            (pyLen c.text_content : PyNum) * 8
              + parse_length (styleGetD cstyle "padding-left" "0") 0
              + parse_length (styleGetD cstyle "padding-right" "0") 0 + 20
          else min 150 remaining_width
        else parse_length child_width available_width
      let child_margins := parse_length (styleGetD cstyle "margin-left" "0") available_width
          + parse_length (styleGetD cstyle "margin-right" "0") available_width
      let child_total_width := natural_width + child_margins
      let wrap := remaining_width < child_total_width ∧ content_x < current_x
      let cx := if wrap then content_x else current_x
      let cy := if wrap then current_y + line_height else current_y
      let lh := if wrap then 0 else line_height
      do
        let t ← layoutF eng f (some pstyle) c natural_width available_height false cx cy
        let lh' := max lh (t.box.height + t.box.margin_top + t.box.margin_bottom)
        let ts ← inline_goF eng f pstyle cs available_width available_height content_x
          (cx + child_total_width) cy lh'
        pure (t :: ts)
    else
      let cy := if content_x < current_x then current_y + line_height else current_y
      do
        let t ← layoutF eng f (some pstyle) c available_width available_height false content_x cy
        let cy' := cy + t.box.height + t.box.margin_top + t.box.margin_bottom
        let ts ← inline_goF eng f pstyle cs available_width available_height content_x
          content_x cy' 0
        pure (t :: ts)

end

/-- Fuel that always suffices for `layoutF` (proved below). -/
def layoutFuel (e : HTMLElement) : Nat := 4 * sizeE e + 4

/-- `LayoutEngine.layout(element, container_width, container_height)` with
explicit container sizes. -/
def layoutRun (eng : Engine) (e : HTMLElement) (cw ch : PyNum) : Except PyError Laid :=
  layoutF eng (layoutFuel e) none e cw ch true 0 0

/-- `LayoutEngine.layout(element)`: container sizes default to the
viewport. -/
def layout (eng : Engine) (e : HTMLElement) : Except PyError Laid :=
  layoutRun eng e eng.viewport_width eng.viewport_height

/-- The `LayoutBox` at a child path of a layout result (`[]` is the root,
`[i]` the `i`-th child of the root, …); a zero box when the result is an
error or the path does not exist, mirroring the "missing layout box reads
as a zero-size box" convention of the spec. -/
def boxAt (r : Except PyError Laid) (path : List Nat) : LayoutBox :=
  match r with
  | .error _ => LayoutBox.zero
  | .ok t => (path.foldl (fun acc i => acc.children.getD i (Laid.mk LayoutBox.zero [])) t).box

/-! ## Unified engine: `unified_layout_engine.py` -/

/-- `WorkingLayoutBox` of `unified_layout_engine.py`: the base geometry
fields plus the ultra-level fields touched by `_apply_transforms` and
`_apply_ultra_effects` (`z_index`, the unused position/offset fields and
the animation lists never influence geometry and are omitted). -/
structure UBox : Type where
  x : PyNum
  y : PyNum
  width : PyNum
  height : PyNum
  margin_top : PyNum
  margin_right : PyNum
  margin_bottom : PyNum
  margin_left : PyNum
  padding_top : PyNum
  padding_right : PyNum
  padding_bottom : PyNum
  padding_left : PyNum
  border_width : PyNum
  rotation : PyNum
  scale : PyNum
  opacity : PyNum
  filters : List String
  clip_path : Option String

/-- A freshly constructed `WorkingLayoutBox()` (dataclass defaults). -/
def UBox.zero : UBox :=
  ⟨0, 0, 0, 0, 0, 0, 0, 0, 0, 0, 0, 0, 0, 0, 1, 1, [], none⟩

/-- `UnifiedLayoutEngine._calculate_auto_height(element, container_height)`
(no parent access, simpler table than the base engine's). -/
def u_calculate_auto_height (eng : Engine) (e : HTMLElement)
    (container_height : PyNum) : PyNum :=
  let style := e.computed_style
  if e.tag = "html" then eng.viewport_height
  else if e.tag = "body" then container_height
  else if ¬e.text_content.isEmpty ∧ ¬(pyStrip e.text_content).isEmpty then
    let font_size := parse_length (styleGetD style "font-size" "16px") 0
    let padding_height := parse_length (styleGetD style "padding-top" "0") 0
        + parse_length (styleGetD style "padding-bottom" "0") 0
    max (font_size * PyNum.decimal 15 1 + padding_height) 30
  else if e.tag = "h1" then 50 else if e.tag = "h2" then 45
  else if e.tag = "h3" then 40 else if e.tag = "button" then 40
  else if e.tag = "nav" then 60 else if e.tag = "header" then 100
  else if e.tag = "footer" then 60 else if e.tag = "aside" then 300
  else if e.tag = "main" then 400 else if e.tag = "section" then 200
  else 40

/-- `UnifiedLayoutEngine._parse_margins_padding`: the `margin`/`padding`
shorthands, when present, are used exclusively; the longhands are consulted
only when the shorthand is absent.  Returns (margins, paddings) as
`(top, right, bottom, left)` quadruples.  (`_parse_box_value` and
`_parse_length` of this engine are character-identical to the base
engine's and are reused.) -/
def u_parse_margins_padding (style : Style) (container_width : PyNum) :
    (PyNum × PyNum × PyNum × PyNum) × (PyNum × PyNum × PyNum × PyNum) :=
  let margins :=
    if styleHas style "margin" then
      parse_box_value (styleGetD style "margin" "0") container_width
    else
      (parse_length (styleGetD style "margin-top" "0") container_width,
       parse_length (styleGetD style "margin-right" "0") container_width,
       parse_length (styleGetD style "margin-bottom" "0") container_width,
       parse_length (styleGetD style "margin-left" "0") container_width)
  let paddings :=
    if styleHas style "padding" then
      parse_box_value (styleGetD style "padding" "0") container_width
    else
      (parse_length (styleGetD style "padding-top" "0") container_width,
       parse_length (styleGetD style "padding-right" "0") container_width,
       parse_length (styleGetD style "padding-bottom" "0") container_width,
       parse_length (styleGetD style "padding-left" "0") container_width)
  (margins, paddings)

/-- `UnifiedLayoutEngine._calculate_unified_box_model`.  The flex-basis
branch of the auto-width path calls a bare `float(...)` and can raise. -/
def u_box_model (eng : Engine) (parentStyle : Option Style) (e : HTMLElement)
    (container_width container_height : PyNum) : Except PyError UBox := do
  let style := e.computed_style
  let mp := u_parse_margins_padding style container_width
  let margins := mp.1
  let paddings := mp.2
  let border_width := parse_length (styleGetD style "border-width" "0") container_width
  let parent_display :=
    match parentStyle with
    | some ps => styleGetD ps "display" "block"
    | none => "block"
  let widthv := styleGetD style "width" "auto"
  let width ←
    if widthv = "auto" then
      if parent_display = "flex" then
        if (match parentStyle with
            | some ps => styleGetD ps "flex-direction" "row"
            | none => "row") = "row" then
          let flex_basis := styleGetD style "flex-basis" "auto"
          if flex_basis ≠ "auto" ∧ endsWithStr flex_basis "px" then
            tryFloat (dropRightStr flex_basis 2)
          else if e.tag = "button" ∧ ¬e.text_content.isEmpty then
            pure ((pyLen e.text_content : PyNum) * 8 + paddings.2.2.2 + paddings.2.1 + 20)
          else pure 100
        else
          pure (max 0 (container_width - margins.2.2.2 - margins.2.1))
      else
        if e.tag = "button" ∧ ¬e.text_content.isEmpty then
          let text_width := (pyLen e.text_content : PyNum) * 8
          let min_width := text_width + paddings.2.2.2 + paddings.2.1 + 20
          let available_width := container_width - margins.2.2.2 - margins.2.1
          pure (max min_width (min available_width 150))
        else pure (max 0 (container_width - margins.2.2.2 - margins.2.1))
    else pure (parse_length widthv container_width)
  let heightv := styleGetD style "height" "auto"
  let height :=
    if heightv = "auto" then
      if parent_display = "flex" then
        max 0 (container_height - margins.1 - margins.2.2.1)
      else u_calculate_auto_height eng e container_height
    else parse_length heightv container_height
  pure { UBox.zero with
         width := width, height := height,
         margin_top := margins.1, margin_right := margins.2.1,
         margin_bottom := margins.2.2.1, margin_left := margins.2.2.2,
         padding_top := paddings.1, padding_right := paddings.2.1,
         padding_bottom := paddings.2.2.1, padding_left := paddings.2.2.2,
         border_width := border_width }

/-- `UnifiedLayoutEngine._apply_positioning(element, parent_x, parent_y)`
(the two position arguments of the source are unused by its body): for
`position: absolute` the `right` offset is resolved against the engine's
**viewport width**, not the containing block. -/
def u_apply_positioning (eng : Engine) (style : Style) (box : UBox) : UBox :=
  let position := styleGetD style "position" "static"
  if position = "absolute" then
    let top := styleGetD style "top" "auto"
    let left := styleGetD style "left" "auto"
    let right := styleGetD style "right" "auto"
    let box1 := if top ≠ "auto" then { box with y := parse_length top 0 } else box
    if left ≠ "auto" then { box1 with x := parse_length left 0 }
    else if right ≠ "auto" then
      { box1 with x := eng.viewport_width - box1.width - parse_length right 0 }
    else box1
  else if position = "relative" then
    let top := styleGetD style "top" "auto"
    let left := styleGetD style "left" "auto"
    let box1 := if top ≠ "auto" then { box with y := box.y + parse_length top 0 } else box
    if left ≠ "auto" then { box1 with x := box1.x + parse_length left 0 }
    else box1
  else box

/-- First capture of the regex `pat ++ "([^)]+)"` + closing paren, scanning
left to right (`re.search(r'…\(([^)]+)\)', s)`): at each position, a match
requires the literal pattern, then at least one non-`)` character, then
`)`. -/
def reCapture (pat : List Char) : List Char → Option (List Char)
  | [] => none
  | c :: t =>
    if pat.isPrefixOf (c :: t) then
      let rest := (c :: t).drop pat.length
      let cap := rest.takeWhile (fun x => x ≠ ')')
      if ¬cap.isEmpty ∧ (rest.drop cap.length).headD ' ' = ')' then some cap
      else reCapture pat t
    else reCapture pat t

/-- `re.search(fname + r'\(([^)]+)\)', hay)`, returning the capture. -/
def reSearchFn (hay fname : String) : Option String :=
  (reCapture (fname.toList ++ ['(']) hay.toList).map (fun l => String.mk l)

/-- `UnifiedLayoutEngine._apply_transforms`: rotate/scale/translate; the
angle and scale parses are bare `float(...)` calls and can raise. -/
def u_apply_transforms (style : Style) (box : UBox) : Except PyError UBox := do
  let transform := styleGetD style "transform" "none"
  if transform = "none" then pure box
  else do
    let box1 ←
      if containsStr transform "rotate(" then
        match reSearchFn transform "rotate" with
        | some angle_str => do
          let r ← tryFloat (pyDeleteSub angle_str "deg")
          pure { box with rotation := r }
        | none => pure box
      else pure box
    let box2 ←
      if containsStr transform "scale(" then
        match reSearchFn transform "scale" with
        | some scale_str => do
          let s ← tryFloat scale_str
          pure { box1 with scale := s }
        | none => pure box1
      else pure box1
    if containsStr transform "translate(" then
      match reSearchFn transform "translate" with
      | some translate_str =>
        let parts := pySplitComma translate_str
        if parts.length ≥ 2 then
          let x_offset := parse_length (pyStrip (parts.getD 0 "")) 0
          let y_offset := parse_length (pyStrip (parts.getD 1 "")) 0
          pure { box2 with x := box2.x + x_offset, y := box2.y + y_offset }
        else pure box2
      | none => pure box2
    else pure box2

/-- `UnifiedLayoutEngine._parse_filters`. -/
def u_parse_filters (filter_value : String) : List String :=
  (if containsStr filter_value "blur(" then ["blur"] else [])
    ++ (if containsStr filter_value "brightness(" then ["brightness"] else [])

/-- `UnifiedLayoutEngine._apply_ultra_effects`: opacity (guarded parse),
filters, clip path; geometry untouched. -/
def u_apply_ultra_effects (style : Style) (box : UBox) : UBox :=
  let box1 := { box with opacity := (pyFloat (styleGetD style "opacity" "1")).getD 1 }
  let filter_value := styleGetD style "filter" "none"
  let box2 :=
    if filter_value ≠ "none" then { box1 with filters := u_parse_filters filter_value }
    else box1
  let clip_path := styleGetD style "clip-path" "none"
  if clip_path ≠ "none" then { box2 with clip_path := some clip_path }
  else box2

/-- First pass of `_parse_grid_tracks_working`: `px` tracks are fixed
sizes, `fr` tracks are recorded with their weight (anything else counts as
`1fr`); both `float(...)` parses are bare and can raise. -/
def u_grid_first_pass : List String → Nat →
    Except PyError (List PyNum × List (Nat × PyNum) × PyNum)
  | [], _ => pure ([], [], 0)
  | t :: ts, i => do
    if endsWithStr t "px" then
      let size ← tryFloat (dropRightStr t 2)
      let rest ← u_grid_first_pass ts (i + 1)
      pure (size :: rest.1, rest.2.1, size + rest.2.2)
    else if endsWithStr t "fr" then
      let fr_value ← tryFloat (dropRightStr t 2)
      let rest ← u_grid_first_pass ts (i + 1)
      pure (0 :: rest.1, (i, fr_value) :: rest.2.1, rest.2.2)
    else do
      let rest ← u_grid_first_pass ts (i + 1)
      pure (0 :: rest.1, (i, 1) :: rest.2.1, rest.2.2)

/-- `UnifiedLayoutEngine._parse_grid_tracks_working(tracks_str,
available_space, count, gap)`: resolve `count` track sizes; `fr` tracks
share the space remaining after fixed tracks and gaps. -/
def u_parse_grid_tracks_working (tracks_str : String) (available_space : PyNum)
    (count : Nat) (gap : PyNum) : Except PyError (List PyNum) := do
  if tracks_str.isEmpty ∨ tracks_str = "none" then
    let space_per_track := (available_space - gap * ((count - 1 : Nat) : PyNum)) / (count : PyNum)
    pure (List.replicate count (max 0 space_per_track))
  else
    let tracks0 := pySplitWs tracks_str
    let tracks :=
      if tracks0.length < count then tracks0 ++ List.replicate (count - tracks0.length) "1fr"
      else tracks0.take count
    let fp ← u_grid_first_pass tracks 0
    let sizes := fp.1
    let fr_tracks := fp.2.1
    let used_space := fp.2.2
    let gap_space := gap * ((count - 1 : Nat) : PyNum)
    let remaining_space := max 0 (available_space - used_space - gap_space)
    let total_fr := fr_tracks.foldl (fun a p => a + p.2) 0
    let sizes2 :=
      if 0 < total_fr ∧ 0 < remaining_space then
        let fr_unit := remaining_space / total_fr
        fr_tracks.foldl (fun acc p => acc.set p.1 (p.2 * fr_unit)) sizes
      else sizes
    pure (sizes2.map (fun s => max 0 s))

/-- Fuelled scan extracting the quoted fragments of a string
(`re.findall(r'"([^"]*)"', s)`). -/
def extractQuotedF : Nat → List Char → List (List Char)
  | 0, _ => []
  | _ + 1, [] => []
  | f + 1, c :: t =>
    if c = '"' then
      let body := t.takeWhile (fun x => x ≠ '"')
      let rest := t.drop body.length
      match rest with
      | '"' :: r2 => body :: extractQuotedF f r2
      | _ => []
    else extractQuotedF f t

/-- `re.findall(r'"([^"]*)"', s)`. -/
def extractQuoted (s : String) : List String :=
  (extractQuotedF s.toList.length s.toList).map (fun l => String.mk l)

/-- Area bounds `[row_start, col_start, row_end, col_end]`. -/
abbrev GridBounds := Nat × Nat × Nat × Nat

/-- Insert or extend an entry of the `area_bounds` dictionary. -/
def boundsUpdate : List (String × GridBounds) → String → Nat → Nat →
    List (String × GridBounds)
  | [], name, r, c => [(name, (r, c, r + 1, c + 1))]
  | (k, b) :: rest, name, r, c =>
    if k == name then
      (k, (min b.1 r, min b.2.1 c, max b.2.2.1 (r + 1), max b.2.2.2 (c + 1))) :: rest
    else (k, b) :: boundsUpdate rest name r c

/-- Build the `area_bounds` map by scanning the grid cells in row-major
order (cells outside a ragged row are skipped; `.` is an empty cell). -/
def buildBounds (grid : List (List String)) (rows cols : Nat) :
    List (String × GridBounds) :=
  (List.range rows).foldl (fun m r =>
    (List.range cols).foldl (fun m2 c =>
      if r < grid.length ∧ c < (grid.getD r []).length then
        let area_name := (grid.getD r []).getD c ""
        if area_name ≠ "." then boundsUpdate m2 area_name r c else m2
      else m2) m) []

/-- The running-position loop `for i in range(k): pos += sizes[i] + (gap if
i > 0 else 0)` of the grid placement. -/
def gridAccum (sizes : List PyNum) (gap : PyNum) (k : Nat) (start : PyNum) : PyNum :=
  (List.range k).foldl (fun x i => x + sizes.getD i 0 + (if 0 < i then gap else 0)) start

/-- `sum(sizes[a:b])` plus `gap * (b - a - 1)` when the span is wider than
one track. -/
def gridSpanSize (sizes : List PyNum) (gap : PyNum) (a b : Nat) : PyNum :=
  let base := ((sizes.drop a).take (b - a)).foldl (fun x s => x + s) 0
  if 1 < b - a then base + gap * ((b - a - 1 : Nat) : PyNum) else base

/-- Item collection loop of `_layout_flex_row_working` (the flex-property
parsing is identical to the base engine's `flex_props`; the base-width
branch order differs: the `px` flex-basis test comes first, then the
`0`/`0%` test). -/
def u_flex_row_item (child : HTMLElement) (available_width : PyNum) :
    Except PyError FlexItemR := do
  let cs := child.computed_style
  let gsb ← flex_props cs
  let flex_grow := gsb.1
  let flex_basis := gsb.2.2
  let base_width ←
    if flex_basis ≠ "auto" ∧ endsWithStr flex_basis "px" then
      tryFloat (dropRightStr flex_basis 2)
    else if flex_basis = "0%" ∨ flex_basis = "0" then pure 0
    else if styleGetD cs "width" "auto" ≠ "auto" then
      pure (parse_length (styleGetD cs "width" "auto") available_width)
    else if child.tag = "button" ∧ ¬child.text_content.isEmpty then
      pure ((pyLen child.text_content : PyNum) * 8 + 40)
    else if 0 < flex_grow then pure 0
    else pure 100
  pure ⟨flex_grow, gsb.2.1, base_width, base_width⟩

/-- Collection loop of `_layout_flex_row_working` over all children. -/
def u_flex_row_items : List HTMLElement → PyNum → Except PyError (List FlexItemR)
  | [], _ => pure []
  | c :: cs, available_width => do
    let it ← u_flex_row_item c available_width
    let rest ← u_flex_row_items cs available_width
    pure (it :: rest)

/-- Flex-property parsing of `_layout_flex_column_working`: only
`flex-grow` and `flex-basis` are read (no `flex-shrink`, and the shorthand
contributes only its first and third parts). -/
def u_flex_col_props (cs : Style) : Except PyError (PyNum × String) := do
  let g0 ← tryFloat (styleGetD cs "flex-grow" "0")
  let b0 := styleGetD cs "flex-basis" "auto"
  match styleGet cs "flex" with
  | none => pure (g0, b0)
  | some fv =>
    let parts := pySplitWs fv
    do
      let g1 ← if parts.length ≥ 1 then tryFloat (parts.getD 0 "") else pure g0
      let b1 := if parts.length ≥ 3 then parts.getD 2 "" else b0
      pure (g1, b1)

/-- Item collection of `_layout_flex_column_working` (the shrink factor of
the record is unused by this engine and set to 1). -/
def u_flex_col_item (eng : Engine) (child : HTMLElement) (available_height : PyNum) :
    Except PyError FlexItemR := do
  let cs := child.computed_style
  let gb ← u_flex_col_props cs
  let flex_basis := gb.2
  let base_height ←
    if flex_basis ≠ "auto" ∧ endsWithStr flex_basis "px" then
      tryFloat (dropRightStr flex_basis 2)
    else if styleGetD cs "height" "auto" ≠ "auto" then
      pure (parse_length (styleGetD cs "height" "auto") available_height)
    else pure (u_calculate_auto_height eng child available_height)
  pure ⟨gb.1, 1, base_height, base_height⟩

/-- Collection loop of `_layout_flex_column_working` over all children. -/
def u_flex_col_items (eng : Engine) : List HTMLElement → PyNum →
    Except PyError (List FlexItemR)
  | [], _ => pure []
  | c :: cs, available_height => do
    let it ← u_flex_col_item eng c available_height
    let rest ← u_flex_col_items eng cs available_height
    pure (it :: rest)

/-- Grow distribution of both `_layout_flex_row_working` and
`_layout_flex_column_working`: each growing item's final size is
**replaced by** `flex_grow * flex_unit` (the base size is discarded), and
there is no shrink pass in this engine. -/
def u_distribute_grow (items : List FlexItemR) (remaining total_grow : PyNum) :
    List FlexItemR :=
  if 0 < total_grow ∧ 0 < remaining then
    let flex_unit := remaining / total_grow
    items.map (fun it =>
      if 0 < it.flex_grow then { it with final_main := it.flex_grow * flex_unit }
      else it)
  else items

/-- The output tree of a unified layout pass; children that the grid paths
skip (no matching area, or beyond the 2×2 fallback grid) are `none`: the
source never assigns them a `layout_box`. -/
inductive ULaid : Type where
  | mk (box : UBox) (children : List (Option ULaid))

def ULaid.box : ULaid → UBox
  | .mk b _ => b

def ULaid.children : ULaid → List (Option ULaid)
  | .mk _ cs => cs

mutual

/-- `UnifiedLayoutEngine.layout(element, container_width,
container_height, is_root, parent_x, parent_y)`, fuelled. -/
def u_layoutF (eng : Engine) : Nat → Option Style → HTMLElement → PyNum → PyNum →
    Bool → PyNum → PyNum → Except PyError ULaid
  | 0, _, _, _, _, _, _, _ => .error .fuelExhausted
  | f + 1, ps, e, container_width, container_height, is_root, parent_x, parent_y => do
    let box0 ←
      if is_root then
        pure { UBox.zero with width := container_width, height := container_height }
      else do
        let b ← u_box_model eng ps e container_width container_height
        pure { b with x := parent_x, y := parent_y }
    let box1 := u_apply_positioning eng e.computed_style box0
    let display := styleGetD e.computed_style "display" "block"
    let kids ←
      if display = "grid" then u_grid_workingF eng f e box1
      else if display = "flex" then
        if styleGetD e.computed_style "flex-direction" "row" = "row" then
          u_flex_rowF eng f e box1
        else u_flex_colF eng f e box1
      else u_blockF eng f e box1
    let box2 ← u_apply_transforms e.computed_style box1
    let box3 := u_apply_ultra_effects e.computed_style box2
    pure (ULaid.mk box3 kids)

/-- `UnifiedLayoutEngine._layout_block_working`. -/
def u_blockF (eng : Engine) : Nat → HTMLElement → UBox →
    Except PyError (List (Option ULaid))
  | 0, _, _ => .error .fuelExhausted
  | f + 1, e, box =>
    let available_width := box.width - box.padding_left - box.padding_right
    let available_height := box.height - box.padding_top - box.padding_bottom
    u_block_goF eng f e.computed_style e.children available_width available_height
      (box.x + box.padding_left) (box.y + box.padding_top)

/-- The per-child loop of `_layout_block_working`: each child is laid out
at the running y (no margin offset is added by this engine), which then
advances by `height + margin_top + margin_bottom`. -/
def u_block_goF (eng : Engine) : Nat → Style → List HTMLElement → PyNum → PyNum →
    PyNum → PyNum → Except PyError (List (Option ULaid))
  | 0, _, _, _, _, _, _ => .error .fuelExhausted
  | _ + 1, _, [], _, _, _, _ => pure []
  | f + 1, pstyle, c :: cs, available_width, available_height, content_x, current_y => do
    let child_height := u_calculate_auto_height eng c available_height
    let t ← u_layoutF eng f (some pstyle) c available_width child_height false
      content_x current_y
    let ts ← u_block_goF eng f pstyle cs available_width available_height content_x
      (current_y + t.box.height + t.box.margin_top + t.box.margin_bottom)
    pure (some t :: ts)

/-- `UnifiedLayoutEngine._layout_flex_row_working`. -/
def u_flex_rowF (eng : Engine) : Nat → HTMLElement → UBox →
    Except PyError (List (Option ULaid))
  | 0, _, _ => .error .fuelExhausted
  | f + 1, e, box =>
    if e.children.isEmpty then pure []
    else do
      let available_width := box.width - box.padding_left - box.padding_right
      let available_height := box.height - box.padding_top - box.padding_bottom
      let items0 ← u_flex_row_items e.children available_width
      let remaining_width := available_width - flex_total_fixed items0
      let items1 := u_distribute_grow items0 remaining_width (flex_total_grow items0)
      u_flex_row_placeF eng f e.computed_style e.children
        (items1.map (fun it => it.final_main)) available_height
        (box.y + box.padding_top) (box.x + box.padding_left)

/-- Positioning loop of `_layout_flex_row_working`. -/
def u_flex_row_placeF (eng : Engine) : Nat → Style → List HTMLElement →
    List PyNum → PyNum → PyNum → PyNum → Except PyError (List (Option ULaid))
  | 0, _, _, _, _, _, _ => .error .fuelExhausted
  | _ + 1, _, [], _, _, _, _ => pure []
  | f + 1, pstyle, c :: cs, ws, available_height, content_y, current_x => do
    let w := ws.headD 0
    let t ← u_layoutF eng f (some pstyle) c w available_height false current_x content_y
    let ts ← u_flex_row_placeF eng f pstyle cs ws.tail available_height content_y
      (current_x + w)
    pure (some t :: ts)

/-- `UnifiedLayoutEngine._layout_flex_column_working`. -/
def u_flex_colF (eng : Engine) : Nat → HTMLElement → UBox →
    Except PyError (List (Option ULaid))
  | 0, _, _ => .error .fuelExhausted
  | f + 1, e, box =>
    if e.children.isEmpty then pure []
    else do
      let available_width := box.width - box.padding_left - box.padding_right
      let available_height := box.height - box.padding_top - box.padding_bottom
      let items0 ← u_flex_col_items eng e.children available_height
      let remaining_height := available_height - flex_total_fixed items0
      let items1 := u_distribute_grow items0 remaining_height (flex_total_grow items0)
      u_flex_col_placeF eng f e.computed_style e.children
        (items1.map (fun it => it.final_main)) available_width
        (box.x + box.padding_left) (box.y + box.padding_top)

/-- Positioning loop of `_layout_flex_column_working`. -/
def u_flex_col_placeF (eng : Engine) : Nat → Style → List HTMLElement →
    List PyNum → PyNum → PyNum → PyNum → Except PyError (List (Option ULaid))
  | 0, _, _, _, _, _, _ => .error .fuelExhausted
  | _ + 1, _, [], _, _, _, _ => pure []
  | f + 1, pstyle, c :: cs, hs, available_width, content_x, current_y => do
    let h := hs.headD 0
    let t ← u_layoutF eng f (some pstyle) c available_width h false content_x current_y
    let ts ← u_flex_col_placeF eng f pstyle cs hs.tail available_width content_x
      (current_y + h)
    pure (some t :: ts)

/-- `UnifiedLayoutEngine._layout_grid_working`: template-area grid, falling
back to `_layout_grid_simple_columns` when no areas are declared. -/
def u_grid_workingF (eng : Engine) : Nat → HTMLElement → UBox →
    Except PyError (List (Option ULaid))
  | 0, _, _ => .error .fuelExhausted
  | f + 1, e, box =>
    let style := e.computed_style
    let areas_str := styleGetD style "grid-template-areas" "none"
    if areas_str = "none" then u_grid_simpleF eng f e box
    else
      let quoted_areas := extractQuoted areas_str
      if quoted_areas.isEmpty then u_grid_simpleF eng f e box
      else
        let grid := (quoted_areas.map (fun r => pySplitWs (pyStrip r))).filter
          (fun r => ¬r.isEmpty)
        if grid.isEmpty then u_grid_simpleF eng f e box
        else do
          let rows := grid.length
          let cols := (grid.headD []).length
          let available_width := box.width - box.padding_left - box.padding_right
          let available_height := box.height - box.padding_top - box.padding_bottom
          let gap := parse_length (styleGetD style "gap" "10px") 0
          let column_sizes ← u_parse_grid_tracks_working
            (styleGetD style "grid-template-columns" "1fr 250px") available_width cols gap
          let row_sizes ← u_parse_grid_tracks_working
            (styleGetD style "grid-template-rows" "80px 1fr 50px") available_height rows gap
          let area_bounds := buildBounds grid rows cols
          u_grid_place_goF eng f e.computed_style e.children area_bounds
            column_sizes row_sizes gap (box.x + box.padding_left) (box.y + box.padding_top)

/-- Placement loop of `_layout_grid_working`: children with a `grid-area`
matching a named area are laid out in its pixel rectangle; the others are
skipped (they keep no layout box). -/
def u_grid_place_goF (eng : Engine) : Nat → Style → List HTMLElement →
    List (String × GridBounds) → List PyNum → List PyNum → PyNum → PyNum → PyNum →
    Except PyError (List (Option ULaid))
  | 0, _, _, _, _, _, _, _, _ => .error .fuelExhausted
  | _ + 1, _, [], _, _, _, _, _, _ => pure []
  | f + 1, pstyle, c :: cs, area_bounds, column_sizes, row_sizes, gap,
      content_x, content_y => do
    let grid_area := styleGetD c.computed_style "grid-area" "auto"
    let t ←
      match (area_bounds.find? (fun p => p.1 == grid_area)).map (fun p => p.2) with
      | some b => do
        let x := gridAccum column_sizes gap b.2.1 content_x
        let y := gridAccum row_sizes gap b.1 content_y
        let width := gridSpanSize column_sizes gap b.2.1 b.2.2.2
        let height := gridSpanSize row_sizes gap b.1 b.2.2.1
        let t0 ← u_layoutF eng f (some pstyle) c width height false x y
        pure (some t0)
      | none => pure none
    let ts ← u_grid_place_goF eng f pstyle cs area_bounds column_sizes row_sizes gap
      content_x content_y
    pure (t :: ts)

/-- `UnifiedLayoutEngine._layout_grid_simple_columns`: a default 2×2 grid;
children beyond the fourth are skipped (`break`). -/
def u_grid_simpleF (eng : Engine) : Nat → HTMLElement → UBox →
    Except PyError (List (Option ULaid))
  | 0, _, _ => .error .fuelExhausted
  | f + 1, e, box =>
    let available_width := box.width - box.padding_left - box.padding_right
    let available_height := box.height - box.padding_top - box.padding_bottom
    let gap := parse_length (styleGetD e.computed_style "gap" "15px") 0
    let col_width := (available_width - gap) / 2
    let row_height := (available_height - gap) / 2
    u_grid_simple_goF eng f e.computed_style e.children 0 col_width row_height gap
      (box.x + box.padding_left) (box.y + box.padding_top)

/-- Enumerated placement loop of `_layout_grid_simple_columns`. -/
def u_grid_simple_goF (eng : Engine) : Nat → Style → List HTMLElement → Nat →
    PyNum → PyNum → PyNum → PyNum → PyNum → Except PyError (List (Option ULaid))
  | 0, _, _, _, _, _, _, _, _ => .error .fuelExhausted
  | _ + 1, _, [], _, _, _, _, _, _ => pure []
  | f + 1, pstyle, c :: cs, i, col_width, row_height, gap, content_x, content_y =>
    if 4 ≤ i then pure ((c :: cs).map (fun _ => none))
    else do
      let col := i % 2
      let row := i / 2
      let x := content_x + (col : PyNum) * (col_width + gap)
      let y := content_y + (row : PyNum) * (row_height + gap)
      let t ← u_layoutF eng f (some pstyle) c col_width row_height false x y
      let ts ← u_grid_simple_goF eng f pstyle cs (i + 1) col_width row_height gap
        content_x content_y
      pure (some t :: ts)

end

/-- `UnifiedLayoutEngine.layout(element, container_width,
container_height)` with explicit container sizes. -/
def u_layoutRun (eng : Engine) (e : HTMLElement) (cw ch : PyNum) :
    Except PyError ULaid :=
  u_layoutF eng (layoutFuel e) none e cw ch true 0 0

/-- `UnifiedLayoutEngine.layout(element)`: containers default to the
viewport. -/
def u_layout (eng : Engine) (e : HTMLElement) : Except PyError ULaid :=
  u_layoutRun eng e eng.viewport_width eng.viewport_height

/-- The `UBox` at a child path of a unified layout result (skipped children
and errors read as a zero box). -/
def uBoxAt (r : Except PyError ULaid) (path : List Nat) : UBox :=
  match r with
  | .error _ => UBox.zero
  | .ok t =>
    (path.foldl (fun acc i => (acc.children.getD i none).getD (ULaid.mk UBox.zero [])) t).box

/-! ## Enhanced engine: `enhanced_css_engine.py` (the pure functions the
claims are about) -/

/-- `_parse_box_shorthand(value)` of the enhanced CSS engine: the full
1/2/3/4-value expansion, on raw value strings. -/
def parse_box_shorthand (value : String) : List String :=
  match pySplitWs value with
  | [a] => [a, a, a, a]
  | [a, b] => [a, b, a, b]
  | [a, b, c] => [a, b, c, b]
  | [a, b, c, d] => [a, b, c, d]
  | _ => ["0", "0", "0", "0"]

/-- `EnhancedLayoutEngine.parse_enhanced_length(value, container_size)`:
like `_parse_length` plus `vh`/`vw` (resolved against the engine's
viewport).  As in the base engine, the `em` test precedes `rem`, so `rem`
values resolve to 0. -/
def parse_enhanced_length (eng : Engine) (value : String) (container_size : PyNum) :
    PyNum :=
  if value.isEmpty ∨ value = "auto" then 0
  else if endsWithStr value "px" then (pyFloat (dropRightStr value 2)).getD 0
  else if endsWithStr value "%" then
    match pyFloat (dropRightStr value 1) with
    | some f => container_size * (f / 100)
    | none => 0
  else if endsWithStr value "em" then
    ((pyFloat (dropRightStr value 2)).map (fun f => f * 16)).getD 0
  else if endsWithStr value "rem" then
    ((pyFloat (dropRightStr value 3)).map (fun f => f * 16)).getD 0
  else if endsWithStr value "vh" then
    match pyFloat (dropRightStr value 2) with
    | some f => eng.viewport_height * (f / 100)
    | none => 0
  else if endsWithStr value "vw" then
    match pyFloat (dropRightStr value 2) with
    | some f => eng.viewport_width * (f / 100)
    | none => 0
  else (pyFloat value).getD 0

/-- `EnhancedLayoutEngine._parse_length_or_none(value)`. -/
def parse_length_or_none (eng : Engine) (value : Option String) : Option PyNum :=
  match value with
  | none => none
  | some s => if s = "auto" then none else some (parse_enhanced_length eng s 0)

/-- `EnhancedLayoutEngine._calculate_enhanced_auto_height(element)`. -/
def calculate_enhanced_auto_height (eng : Engine) (e : HTMLElement) : PyNum :=
  let style := e.computed_style
  if ¬e.text_content.isEmpty ∧ ¬(pyStrip e.text_content).isEmpty then
    let font_size := parse_enhanced_length eng (styleGetD style "font-size" "16px") 0
    let line_height := styleGetD style "line-height" "1.4"
    let line_height_value :=
      if endsWithStr line_height "px" then parse_enhanced_length eng line_height 0
      else
        match pyFloat line_height with
        | some v => v * font_size
        | none => font_size * PyNum.decimal 14 1
    let padding_height := parse_enhanced_length eng (styleGetD style "padding-top" "0") 0
        + parse_enhanced_length eng (styleGetD style "padding-bottom" "0") 0
    max (line_height_value + padding_height) 40
  else
    let display := styleGetD style "display" "block"
    if display = "grid" then 200
    else if display = "flex" then 100
    else if e.tag = "h1" then 60
    else if e.tag = "h2" then 50
    else if e.tag = "input" ∨ e.tag = "button" then 40
    else if e.tag = "div" then 80
    else if e.tag = "section" ∨ e.tag = "main" ∨ e.tag = "aside" then 150
    else 50

/-- `EnhancedLayoutEngine._calculate_enhanced_dimensions(element,
container_width, container_height)`: the width/height computation on a box
whose margins, paddings and min/max constraints were already resolved
(those are taken as arguments here, as the source reads them from
`element.layout_box`).  Returns the final `(width, height)`. -/
def calculate_enhanced_dimensions (eng : Engine) (e : HTMLElement)
    (margin_top margin_right margin_bottom margin_left padding_left padding_right : PyNum)
    (min_width max_width min_height max_height : Option PyNum)
    (container_width container_height : PyNum) : PyNum × PyNum :=
  let style := e.computed_style
  let widthv := styleGetD style "width" "auto"
  let width0 :=
    if widthv = "auto" then
      if e.tag = "button" ∧ ¬e.text_content.isEmpty then
        let text_width := (pyLen e.text_content : PyNum) * 8
        let min_w := text_width + padding_left + padding_right + 20
        let available_width := container_width - margin_left - margin_right
        max min_w (min available_width 200)
      else max 0 (container_width - margin_left - margin_right)
    else parse_enhanced_length eng widthv container_width
  let heightv := styleGetD style "height" "auto"
  let height0 :=
    if heightv = "auto" then
      if styleGetD style "display" "block" = "grid" then
        max (container_height - margin_top - margin_bottom) 100
      else calculate_enhanced_auto_height eng e
    else parse_enhanced_length eng heightv container_height
  let width1 := match min_width with | some mw => max width0 mw | none => width0
  let width2 := match max_width with | some mw => min width1 mw | none => width1
  let height1 := match min_height with | some mh => max height0 mh | none => height0
  let height2 := match max_height with | some mh => min height1 mh | none => height1
  (width2, height2)

/-- The box fields read and written by
`EnhancedLayoutEngine._position_absolute_element`. -/
structure EPosBox : Type where
  x : PyNum
  y : PyNum
  width : PyNum
  height : PyNum
  top : Option PyNum
  right : Option PyNum
  bottom : Option PyNum
  left : Option PyNum

/-- `EnhancedLayoutEngine._position_absolute_element(element,
container_width, container_height)`: `left` wins, else `right` resolves
`x = container_width - right - width` (and `top`/`bottom` likewise for
`y`); a fully unset axis defaults to 0. -/
def position_absolute_element (box : EPosBox)
    (container_width container_height : PyNum) : EPosBox :=
  let x :=
    match box.left with
    | some l => l
    | none =>
      match box.right with
      | some r => container_width - r - box.width
      | none => 0
  let y :=
    match box.top with
    | some t => t
    | none =>
      match box.bottom with
      | some b => container_height - b - box.height
      | none => 0
  { box with x := x, y := y }

/-- First pass of `_calculate_grid_track_sizes`: per-track fixed sizes,
`fr` entries `(index, weight)` and the accumulated used size; every parse
failure appends 0 (all the `float(...)` calls of this function are wrapped
in `try/except`). -/
def e_grid_first_pass (container_size : PyNum) : List String → Nat →
    List PyNum × List (Nat × PyNum) × PyNum
  | [], _ => ([], [], 0)
  | t :: ts, i =>
    let rest := e_grid_first_pass container_size ts (i + 1)
    if endsWithStr t "fr" then
      match pyFloat (dropRightStr t 2) with
      | some fr_value => (0 :: rest.1, (i, fr_value) :: rest.2.1, rest.2.2)
      | none => (0 :: rest.1, rest.2.1, rest.2.2)
    else if t = "auto" then (0 :: rest.1, rest.2.1, rest.2.2)
    else if endsWithStr t "px" then
      match pyFloat (dropRightStr t 2) with
      | some size => (size :: rest.1, rest.2.1, size + rest.2.2)
      | none => (0 :: rest.1, rest.2.1, rest.2.2)
    else if endsWithStr t "%" then
      match pyFloat (dropRightStr t 1) with
      | some p =>
        let size := container_size * (p / 100)
        (size :: rest.1, rest.2.1, size + rest.2.2)
      | none => (0 :: rest.1, rest.2.1, rest.2.2)
    else
      match pyFloat t with
      | some size => (size :: rest.1, rest.2.1, size + rest.2.2)
      | none => (0 :: rest.1, rest.2.1, rest.2.2)

/-- `EnhancedLayoutEngine._calculate_grid_track_sizes(tracks,
container_size, gap, track_count)`: fixed/percentage tracks first, `fr`
tracks share the remaining space, `auto` tracks split whatever is left
(the `track_count` parameter of the source is unused by its body). -/
def calculate_grid_track_sizes (tracks : List String)
    (container_size gap : PyNum) (track_count : Nat) : List PyNum :=
  if tracks.isEmpty then [container_size]
  else
    let actual_track_count := tracks.length
    let total_gap := gap * ((actual_track_count - 1 : Nat) : PyNum)
    let available_size := max 0 (container_size - total_gap)
    let fp := e_grid_first_pass container_size tracks 0
    let sizes := fp.1
    let fr_tracks := fp.2.1
    let used_size := fp.2.2
    let remaining_size := max 0 (available_size - used_size)
    let total_fr := fr_tracks.foldl (fun a p => a + p.2) 0
    let sizes2 :=
      if 0 < total_fr ∧ 0 < remaining_size then
        let fr_unit_size := remaining_size / total_fr
        fr_tracks.foldl (fun acc p => acc.set p.1 (p.2 * fr_unit_size)) sizes
      else sizes
    let auto_count := tracks.count "auto"
    let sizes3 :=
      if 0 < auto_count then
        let current_used := sizes2.foldl (fun a s => a + s) 0
        let auto_remaining := max 0 (available_size - current_used)
        let auto_size := auto_remaining / (auto_count : PyNum)
        (tracks.zip sizes2).map (fun p => if p.1 = "auto" then auto_size else p.2)
      else sizes2
    sizes3.map (fun s => max 0 s)

/-- `EnhancedLayoutEngine._find_top_level_comma(content)`: position of the
first comma outside parentheses. -/
def ftlcGo : List Char → Int → Nat → Option Nat
  | [], _, _ => none
  | c :: cs, depth, i =>
    if c = '(' then ftlcGo cs (depth + 1) (i + 1)
    else if c = ')' then ftlcGo cs (depth - 1) (i + 1)
    else if c = ',' ∧ depth = 0 then some i
    else ftlcGo cs depth (i + 1)

/-- `_find_top_level_comma` on a character list. -/
def find_top_level_comma (content : List Char) : Option Nat := ftlcGo content 0 0

/-- Scanner of `EnhancedLayoutEngine._split_grid_template`: split on
whitespace at parenthesis depth 0, closing a part when a parenthesis run
closes; every emitted part is stripped. -/
def sgtGo : List Char → Int → List Char → List (List Char)
  | [], _, cur => if (stripChars cur).isEmpty then [] else [stripChars cur]
  | c :: rest, depth, cur =>
    if c = '(' then sgtGo rest (depth + 1) (cur ++ [c])
    else if c = ')' then
      let cur' := cur ++ [c]
      if depth - 1 = 0 ∧ ¬(stripChars cur').isEmpty then
        stripChars cur' :: sgtGo rest (depth - 1) []
      else sgtGo rest (depth - 1) cur'
    else if pyIsSpace c ∧ depth = 0 then
      if ¬(stripChars cur).isEmpty then stripChars cur :: sgtGo rest depth []
      else sgtGo rest depth cur
    else sgtGo rest depth (cur ++ [c])

/-- `EnhancedLayoutEngine._split_grid_template(template)`. -/
def split_grid_template (template : String) : List String :=
  (sgtGo template.toList 0 []).map (fun l => String.mk l)

/-- `EnhancedLayoutEngine._parse_repeat_function(repeat_str)`: expand
`repeat(count, tracks)`; an integer count is capped at 100
(`count = min(count, 100)`), `auto-fill`/`auto-fit` expand to three copies
of the raw track string, anything else yields `[]`. -/
def parse_repeat_function (repeat_str : String) : List String :=
  if ¬("repeat(".toList.isPrefixOf repeat_str.toList ∧ endsWithStr repeat_str ")") then
    [repeat_str]
  else
    let content := (repeat_str.toList.drop 7).dropLast
    match find_top_level_comma content with
    | none => []
    | some comma_pos =>
      let count_str := String.mk (stripChars (content.take comma_pos))
      let tracks_str := String.mk (stripChars (content.drop (comma_pos + 1)))
      if pyIsDigitStr count_str then
        let count := min (digitsToNat count_str.toList) 100
        (List.replicate count (split_grid_template tracks_str)).flatten
      else if count_str = "auto-fill" ∨ count_str = "auto-fit" then
        List.replicate 3 tracks_str
      else []

/-! ## Bridges between computable checks and rational-valued statements -/

theorem toQ_eq_of_eqv {a b : PyNum} (h : a.eqv b = true) : a.toQ = b.toQ :=
  PyNum.eqv_iff_toQ.mp h

theorem toQ_lt_of_lt {a b : PyNum} (h : a < b) : a.toQ < b.toQ :=
  PyNum.lt_iff_toQ.mp h

theorem toQ_le_of_le {a b : PyNum} (h : a ≤ b) : a.toQ ≤ b.toQ :=
  PyNum.le_iff_toQ.mp h

/-- Does an `Except` hold a `ValueError`? -/
def isValueErrorE {α : Type} (r : Except PyError α) : Bool :=
  match r with
  | .error .valueError => true
  | _ => false

theorem eq_error_of_isValueErrorE {α : Type} {r : Except PyError α}
    (h : isValueErrorE r = true) : r = .error .valueError := by
  match r, h with
  | .error .valueError, _ => rfl

/-- Does an `Except` hold a value? -/
def exceptOk {α : Type} (r : Except PyError α) : Bool :=
  match r with
  | .ok _ => true
  | _ => false

theorem exists_ok_of_exceptOk {α : Type} {r : Except PyError α}
    (h : exceptOk r = true) : ∃ t, r = .ok t := by
  match r, h with
  | .ok t, _ => exact ⟨t, rfl⟩

/-- Pointwise value equality of two `PyNum` lists. -/
def listEqv : List PyNum → List PyNum → Bool
  | [], [] => true
  | a :: as', b :: bs' => a.eqv b && listEqv as' bs'
  | _, _ => false

theorem map_toQ_eq_of_listEqv : ∀ {l m : List PyNum}, listEqv l m = true →
    l.map PyNum.toQ = m.map PyNum.toQ := by
  intro l
  induction l with
  | nil =>
    intro m h
    cases m with
    | nil => rfl
    | cons b bs => simp [listEqv] at h
  | cons a as' ih =>
    intro m h
    cases m with
    | nil => simp [listEqv] at h
    | cons b bs =>
      rw [listEqv, Bool.and_eq_true] at h
      simp only [List.map_cons]
      rw [toQ_eq_of_eqv h.1, ih h.2]

/-- Pointwise value equality under an `Except`. -/
def exceptListEqv (r : Except PyError (List PyNum)) (qs : List PyNum) : Bool :=
  match r with
  | .ok l => listEqv l qs
  | .error _ => false

theorem of_exceptListEqv {r : Except PyError (List PyNum)} {qs : List PyNum}
    (h : exceptListEqv r qs = true) :
    ∃ l, r = .ok l ∧ l.map PyNum.toQ = qs.map PyNum.toQ := by
  match r, h with
  | .ok l, h => exact ⟨l, rfl, map_toQ_eq_of_listEqv h⟩

/-! ## Inputs used by the claim theorems -/

/-- An engine with the default 800×600-like viewport used by several
concrete runs. -/
def engV : Engine := ⟨800, 600⟩

/-- C1 input: a flex container whose child declares `flex-grow: garbage`. -/
def c1_bad : HTMLElement :=
  .mk "div" "" [("display", "flex")] [.mk "span" "" [("flex-grow", "garbage")] []]

/-- A tree whose only malformed values sit in properties parsed through
`_parse_length` (resolved to 0, never raising). -/
def c1_good : HTMLElement :=
  .mk "div" "" [("width", "garbage"), ("display", "flex")]
    [.mk "span" "" [("flex-grow", "1"), ("padding", "junk")] [],
     .mk "button" "ok" [("height", "12parsecs")] []]

/-- C2 input: a child with an explicitly negative width. -/
def c2_tree : HTMLElement :=
  .mk "div" "" [] [.mk "div" "" [("width", "-50px"), ("height", "10px")] []]

/-- C3 input: consecutive block children where the first has the larger
top margin. -/
def c3_tree : HTMLElement :=
  .mk "div" "" []
    [.mk "div" "" [("margin-top", "10px"), ("height", "20px")] [],
     .mk "div" "" [("height", "5px")] []]

/-- C4 input: a column flex container whose growing children have nonzero
base sizes. -/
def c4_eng : Engine := ⟨400, 300⟩

def c4_tree : HTMLElement :=
  .mk "div" "" [("display", "flex"), ("flex-direction", "column")]
    [.mk "div" "" [("flex-basis", "100px"), ("flex-grow", "1")] [],
     .mk "div" "" [("flex-basis", "50px"), ("flex-grow", "1")] []]

/-- C5 input: two `flex-basis: 0; flex-grow: 1` children in a 300px row. -/
def c5_eng : Engine := ⟨300, 100⟩

def c5_tree : HTMLElement :=
  .mk "div" "" [("display", "flex")]
    [.mk "div" "" [("flex-basis", "0"), ("flex-grow", "1")] [],
     .mk "div" "" [("flex-basis", "0"), ("flex-grow", "1")] []]

/-- C7 input for the enhanced positioning function: a 100×50 box with
`right: 10px; top: 5px`. -/
def c7_box : EPosBox := ⟨0, 0, 100, 50, some 5, some 10, none, none⟩

/-- C7 input for the unified engine: a 100×50 absolutely positioned child
(`right: 10px; top: 5px`) inside a 500×300 block, viewport 1200×800. -/
def c7_eng : Engine := ⟨1200, 800⟩

def c7_tree : HTMLElement :=
  .mk "html" "" []
    [.mk "div" "" [("width", "500px"), ("height", "300px")]
      [.mk "div" ""
        [("position", "absolute"), ("right", "10px"), ("top", "5px"),
         ("width", "100px"), ("height", "50px")] []]]

/-- C8 input: both the `margin` shorthand and a `margin-top` longhand. -/
def c8_elem : HTMLElement :=
  .mk "div" "" [("margin", "10px"), ("margin-top", "5px")] []

/-! ## Claim C1 -/

/-- C1, counterexample: `layout()` does **not** always return normally —
on a flex container whose child declares the unparseable `flex-grow:
garbage`, the bare `float('garbage')` of the flex-property parsing raises
`ValueError` and the whole layout call fails. -/
theorem C1_counterexample : layout engV c1_bad = .error .valueError :=
  eq_error_of_isValueErrorE (by decide)

/-! ## Claim C2 -/

/-- C2, counterexample: after `layout()`, the element declaring
`width: -50px` has `layoutBox.width = -50 < 0` — the explicit-width path
copies the parsed value verbatim with no flooring. -/
theorem C2_counterexample :
    (boxAt (layout engV c2_tree) [0]).width.toQ = -50 ∧
      ¬(0 ≤ (boxAt (layout engV c2_tree) [0]).width.toQ) := by
  have h : (boxAt (layout engV c2_tree) [0]).width.eqv (-(50 : PyNum)) = true := by
    decide
  have h2 := toQ_eq_of_eqv h
  rw [PyNum.toQ_neg] at h2
  simp only [PyNum.toQ_ofNat'] at h2
  refine ⟨h2, ?_⟩
  rw [h2]
  norm_num

/-! ## Claim C3 -/

/-- C3, counterexample: for consecutive block children `A` (margin-top
10px, height 20px) and `B`, the engine places `B` at
`y = A.y + A.height + A.marginBottom + B.marginTop = 30`, strictly below
the bound `A.y + A.marginTop + A.height + A.marginBottom = 40` demanded by
the claim: the claimed inequality fails whenever `A.marginTop >
B.marginTop`. -/
theorem C3_counterexample :
    (boxAt (layout engV c3_tree) [1]).y.toQ <
      (boxAt (layout engV c3_tree) [0]).y.toQ
        + (boxAt (layout engV c3_tree) [0]).margin_top.toQ
        + (boxAt (layout engV c3_tree) [0]).height.toQ
        + (boxAt (layout engV c3_tree) [0]).margin_bottom.toQ := by
  have h : (boxAt (layout engV c3_tree) [1]).y <
      (boxAt (layout engV c3_tree) [0]).y
        + (boxAt (layout engV c3_tree) [0]).margin_top
        + (boxAt (layout engV c3_tree) [0]).height
        + (boxAt (layout engV c3_tree) [0]).margin_bottom := by decide
  have h2 := toQ_lt_of_lt h
  simpa using h2

/-! ## Claim C4 -/

/-- C4, counterexample: in the 300px column flex container with children
of base heights 100 and 50 (both `flex-grow: 1`), the first child ends at
main size 150, not the `base + free·(grow/Σgrow) = 100 + 150·(1/2) = 175`
demanded by the claim: the engine replaces the base size by
`grow · (available − Σ non-growing bases)/Σgrow` instead of adding the
proportional share of `available − Σ all bases` on top of the base. -/
theorem C4_counterexample :
    (boxAt (layout c4_eng c4_tree) [0]).height.toQ = 150 ∧
      ¬((boxAt (layout c4_eng c4_tree) [0]).height.toQ
          = 100 + (300 - (100 + 50)) * (1 / (1 + 1))) := by
  have h : (boxAt (layout c4_eng c4_tree) [0]).height.eqv 150 = true := by decide
  have h2 := toQ_eq_of_eqv h
  simp only [PyNum.toQ_ofNat'] at h2
  refine ⟨h2, ?_⟩
  rw [h2]
  norm_num

/-! ## Claim C5 -/

/-- C5, counterexample: in the `UnifiedLayoutEngine`, the same two
`flex-basis: 0; flex-grow: 1` children in a 300px row do **not** end up
with `width == 150 (±1)`: the flex pass distributes 150 to each, but the
unified box model then overwrites an auto-width row-flex child without a
px `flex-basis` with the fixed 100px default, so the stored width is 100. -/
theorem C5_counterexample :
    (uBoxAt (u_layout c5_eng c5_tree) [0]).width.toQ = 100 ∧
      ¬(149 ≤ (uBoxAt (u_layout c5_eng c5_tree) [0]).width.toQ ∧
        (uBoxAt (u_layout c5_eng c5_tree) [0]).width.toQ ≤ 151) := by
  have h : (uBoxAt (u_layout c5_eng c5_tree) [0]).width.eqv 100 = true := by decide
  have h2 := toQ_eq_of_eqv h
  simp only [PyNum.toQ_ofNat'] at h2
  refine ⟨h2, ?_⟩
  rw [h2]
  norm_num

/-! ## Claim C6 -/

/-- C6: grid `fr` distribution.  Both track sizers resolve
`grid-template-columns: 1fr 250px` at available size 1000 with gap 10 to
`[740, 250]`: the `fr` track receives `1000 − 250 − 10 = 740`, the space
remaining after the fixed track and the single gap. -/
theorem C6_grid_fr_tracks :
    (∃ l, u_parse_grid_tracks_working "1fr 250px" 1000 2 10 = .ok l ∧
        l.map PyNum.toQ = [740, 250]) ∧
      (calculate_grid_track_sizes ["1fr", "250px"] 1000 10 2).map PyNum.toQ
        = [740, 250] := by
  constructor
  · have h : exceptListEqv (u_parse_grid_tracks_working "1fr 250px" 1000 2 10)
        [(740 : PyNum), 250] = true := by decide
    obtain ⟨l, hl, hm⟩ := of_exceptListEqv h
    exact ⟨l, hl, by simpa using hm⟩
  · have h : listEqv (calculate_grid_track_sizes ["1fr", "250px"] 1000 10 2)
        [(740 : PyNum), 250] = true := by decide
    have hm := map_toQ_eq_of_listEqv h
    simpa using hm

/-! ## Claim C7 -/

set_option maxHeartbeats 4000000 in
/-- C7, counterexample: in the `UnifiedLayoutEngine`, the absolutely
positioned 100×50 element with `right: 10px; top: 5px` inside a 500×300
containing block ends at `x = 1090`, not the claimed
`containingBlockWidth − right − width = 390`: this engine resolves the
`right` offset against the viewport width (1200), not the containing
block. -/
theorem C7_counterexample :
    (uBoxAt (u_layout c7_eng c7_tree) [0]).width.toQ = 500 ∧
      (uBoxAt (u_layout c7_eng c7_tree) [0, 0]).x.toQ = 1090 ∧
      (uBoxAt (u_layout c7_eng c7_tree) [0, 0]).y.toQ = 5 ∧
      ¬((uBoxAt (u_layout c7_eng c7_tree) [0, 0]).x.toQ = 390) := by
  have h1 : (uBoxAt (u_layout c7_eng c7_tree) [0]).width.eqv 500 = true := by decide
  have h2 : (uBoxAt (u_layout c7_eng c7_tree) [0, 0]).x.eqv 1090 = true := by decide
  have h3 : (uBoxAt (u_layout c7_eng c7_tree) [0, 0]).y.eqv 5 = true := by decide
  have e1 := toQ_eq_of_eqv h1
  have e2 := toQ_eq_of_eqv h2
  have e3 := toQ_eq_of_eqv h3
  simp only [PyNum.toQ_ofNat'] at e1 e2 e3
  refine ⟨e1, e2, e3, ?_⟩
  rw [e2]
  norm_num

/-! ## Claim C8 -/

/-- C8, counterexample: with both `margin: 10px` and `margin-top: 5px`
present, the resolved top margin is 10 (the shorthand's value), not the
longhand's 5: the longhands are parsed first and the shorthand, when
present, overwrites them. -/
theorem C8_counterexample :
    (calculate_box_model engV none c8_elem 800 600).margin_top.toQ = 10 ∧
      ¬((calculate_box_model engV none c8_elem 800 600).margin_top.toQ = 5) := by
  have h : (calculate_box_model engV none c8_elem 800 600).margin_top.eqv 10
      = true := by decide
  have h2 := toQ_eq_of_eqv h
  simp only [PyNum.toQ_ofNat'] at h2
  refine ⟨h2, ?_⟩
  rw [h2]
  norm_num

/-! ## Claim C9 -/

/-- C9, counterexample: the three-value shorthand `"1px 2px 3px"` is
resolved by `_parse_box_value` to `(0, 0, 0, 0)` — there is no three-value
case in the base and unified engines' parser — instead of the
`(top, horizontal, bottom)` expansion the claim demands (top = 1). -/
theorem C9_counterexample :
    (parse_box_value "1px 2px 3px" 0).1.toQ = 0 ∧
      ¬((parse_box_value "1px 2px 3px" 0).1.toQ = 1) := by
  have h : (parse_box_value "1px 2px 3px" 0).1.eqv 0 = true := by decide
  have h2 := toQ_eq_of_eqv h
  simp only [PyNum.toQ_zero] at h2
  refine ⟨h2, ?_⟩
  rw [h2]
  norm_num

/-- C9, amended: the enhanced engine's `_parse_box_shorthand` follows the
full 1/2/3/4-value expansion — one value for all sides, two as (vertical,
horizontal), three as (top, horizontal, bottom), four as (top, right,
bottom, left) — while the `_parse_box_value` of the base and unified
engines handles only the 1/2/4-value forms and yields `(0, 0, 0, 0)` for
three values. -/
theorem C9_amended :
    (∀ v a, pySplitWs v = [a] → parse_box_shorthand v = [a, a, a, a]) ∧
    (∀ v a b, pySplitWs v = [a, b] → parse_box_shorthand v = [a, b, a, b]) ∧
    (∀ v a b c, pySplitWs v = [a, b, c] → parse_box_shorthand v = [a, b, c, b]) ∧
    (∀ v a b c d, pySplitWs v = [a, b, c, d] → parse_box_shorthand v = [a, b, c, d]) ∧
    (∀ (v a b c : String) (csz : PyNum), pySplitWs v = [a, b, c] →
      parse_box_value v csz = (0, 0, 0, 0)) := by
  refine ⟨?_, ?_, ?_, ?_, ?_⟩
  · intro v a h
    rw [parse_box_shorthand, h]
  · intro v a b h
    rw [parse_box_shorthand, h]
  · intro v a b c h
    rw [parse_box_shorthand, h]
  · intro v a b c d h
    rw [parse_box_shorthand, h]
  · intro v a b c csz h
    rw [parse_box_value, h]

theorem C9_amended_witness :
    parse_box_shorthand "1px 2px 3px" = ["1px", "2px", "3px", "2px"] ∧
      parse_box_value "4px 5px 6px" 0 = (0, 0, 0, 0) :=
  ⟨C9_amended.2.2.1 "1px 2px 3px" "1px" "2px" "3px" (by decide),
   C9_amended.2.2.2.2 "4px 5px 6px" "4px" "5px" "6px" 0 (by decide)⟩

/-- C8, amended: when the `margin` (resp. `padding`) shorthand is present
in the style map, its expansion supplies all four sides and any longhands
are ignored — the shorthand wins, the opposite of the claimed precedence;
the longhands take effect only when the shorthand is absent (shown here
for the unified engine's `_parse_margins_padding`, which reads the
longhands only in that case). -/
theorem C8_amended :
    (∀ (eng : Engine) (ps : Option Style) (e : HTMLElement) (cw ch : PyNum),
      styleHas e.computed_style "margin" = true →
        ((calculate_box_model eng ps e cw ch).margin_top,
         (calculate_box_model eng ps e cw ch).margin_right,
         (calculate_box_model eng ps e cw ch).margin_bottom,
         (calculate_box_model eng ps e cw ch).margin_left)
          = parse_box_value (styleGetD e.computed_style "margin" "0") cw) ∧
    (∀ (eng : Engine) (ps : Option Style) (e : HTMLElement) (cw ch : PyNum),
      styleHas e.computed_style "padding" = true →
        ((calculate_box_model eng ps e cw ch).padding_top,
         (calculate_box_model eng ps e cw ch).padding_right,
         (calculate_box_model eng ps e cw ch).padding_bottom,
         (calculate_box_model eng ps e cw ch).padding_left)
          = parse_box_value (styleGetD e.computed_style "padding" "0") cw) ∧
    (∀ (style : Style) (cw : PyNum), styleHas style "margin" = true →
      (u_parse_margins_padding style cw).1
        = parse_box_value (styleGetD style "margin" "0") cw) ∧
    (∀ (style : Style) (cw : PyNum), styleHas style "padding" = true →
      (u_parse_margins_padding style cw).2
        = parse_box_value (styleGetD style "padding" "0") cw) ∧
    (∀ (style : Style) (cw : PyNum), styleHas style "margin" = false →
      (u_parse_margins_padding style cw).1
        = (parse_length (styleGetD style "margin-top" "0") cw,
           parse_length (styleGetD style "margin-right" "0") cw,
           parse_length (styleGetD style "margin-bottom" "0") cw,
           parse_length (styleGetD style "margin-left" "0") cw)) := by
  refine ⟨?_, ?_, ?_, ?_, ?_⟩
  · intro eng ps e cw ch h
    simp only [calculate_box_model, h, if_true]
  · intro eng ps e cw ch h
    simp only [calculate_box_model, h, if_true]
  · intro style cw h
    simp only [u_parse_margins_padding, h, if_true]
  · intro style cw h
    simp only [u_parse_margins_padding, h, if_true]
  · intro style cw h
    simp only [u_parse_margins_padding, h, Bool.false_eq_true, if_false]

theorem C8_amended_witness :
    ((calculate_box_model engV none c8_elem 800 600).margin_top,
     (calculate_box_model engV none c8_elem 800 600).margin_right,
     (calculate_box_model engV none c8_elem 800 600).margin_bottom,
     (calculate_box_model engV none c8_elem 800 600).margin_left)
      = parse_box_value (styleGetD c8_elem.computed_style "margin" "0") 800 :=
  C8_amended.1 engV none c8_elem 800 600 (by decide)

/-- C7, amended: the enhanced engine's `_position_absolute_element` does
resolve a right-only offset as `x = containerWidth − right − width` and a
top offset as `y = top` (and the claimed 390/5 holds concretely for it);
the `UnifiedLayoutEngine`, however, resolves the `right` offset of an
absolute element against the engine's **viewport width** instead of the
containing block: `x = viewportWidth − width − right`. -/
theorem C7_amended :
    (∀ (box : EPosBox) (cw ch r t : PyNum),
      box.left = none → box.right = some r → box.top = some t →
        (position_absolute_element box cw ch).x = cw - r - box.width ∧
        (position_absolute_element box cw ch).y = t) ∧
    ((position_absolute_element c7_box 500 300).x.toQ = 390 ∧
     (position_absolute_element c7_box 500 300).y.toQ = 5) ∧
    (∀ (eng : Engine) (style : Style) (box : UBox),
      styleGetD style "position" "static" = "absolute" →
      styleGetD style "left" "auto" = "auto" →
      styleGetD style "right" "auto" ≠ "auto" →
      styleGetD style "top" "auto" ≠ "auto" →
        (u_apply_positioning eng style box).x
          = eng.viewport_width - box.width - parse_length (styleGetD style "right" "auto") 0 ∧
        (u_apply_positioning eng style box).y
          = parse_length (styleGetD style "top" "auto") 0) := by
  refine ⟨?_, ?_, ?_⟩
  · intro box cw ch r t hl hr ht
    rw [position_absolute_element, hl, hr, ht]
    exact ⟨rfl, rfl⟩
  · constructor
    · have h : (position_absolute_element c7_box 500 300).x.eqv 390 = true := by decide
      have h2 := toQ_eq_of_eqv h
      simpa using h2
    · have h : (position_absolute_element c7_box 500 300).y.eqv 5 = true := by decide
      have h2 := toQ_eq_of_eqv h
      simpa using h2
  · intro eng style box hpos hleft hright htop
    have hpos' : (styleGetD style "position" "static" = "absolute") = True := eq_true hpos
    have htop' : (styleGetD style "top" "auto" ≠ "auto") = True := eq_true htop
    have hright' : (styleGetD style "right" "auto" ≠ "auto") = True := eq_true hright
    have hleft' : (styleGetD style "left" "auto" ≠ "auto") = False := by
      rw [hleft]
      simp
    simp only [u_apply_positioning, hpos', hleft', htop', hright', if_true, if_false]
    refine ⟨?_, ?_⟩ <;> simp

theorem C7_amended_witness :
    (position_absolute_element c7_box 500 300).x = (500 : PyNum) - 10 - c7_box.width ∧
      (position_absolute_element c7_box 500 300).y = (5 : PyNum) :=
  C7_amended.1 c7_box 500 300 10 5 (by decide) (by decide) (by decide)

/-- C2, amended: the auto-sizing paths are floored — an auto width that is
not the button-text heuristic resolves through `max(0, ·)`, and a flex
child's auto height likewise — but an explicitly declared width or height
is taken verbatim from `_parse_length` with no flooring, so a negative
declared dimension (such as `width: -50px`) survives to the layout box. -/
theorem C2_amended :
    (∀ (eng : Engine) (ps : Option Style) (e : HTMLElement) (cw ch : PyNum),
      styleGetD e.computed_style "width" "auto" = "auto" →
      (e.tag = "button" → e.text_content.isEmpty = true) →
        0 ≤ (calculate_box_model eng ps e cw ch).width.toQ) ∧
    (∀ (eng : Engine) (ps : Option Style) (e : HTMLElement) (cw ch : PyNum)
        (w : String),
      styleGetD e.computed_style "width" "auto" = w → w ≠ "auto" →
        (calculate_box_model eng ps e cw ch).width = parse_length w cw) ∧
    (∀ (eng : Engine) (ps : Option Style) (e : HTMLElement) (cw ch : PyNum)
        (hv : String),
      styleGetD e.computed_style "height" "auto" = hv → hv ≠ "auto" →
        (calculate_box_model eng ps e cw ch).height = parse_length hv ch) ∧
    (∀ (eng : Engine) (psv : Style) (e : HTMLElement) (cw ch : PyNum),
      styleGetD e.computed_style "height" "auto" = "auto" →
      styleGetD psv "display" "block" = "flex" →
        0 ≤ (calculate_box_model eng (some psv) e cw ch).height.toQ) := by
  refine ⟨?_, ?_, ?_, ?_⟩
  · intro eng ps e cw ch hw hbtn
    simp only [calculate_box_model, hw, if_true]
    by_cases hpd : (match ps with
        | some p => styleGetD p "display" "block"
        | none => "block") = "flex"
    · simp only [hpd, if_true]
      simp
    · simp only [hpd, if_false]
      by_cases hb : e.tag = "button" ∧ ¬e.text_content.isEmpty
      · exact absurd (hbtn hb.1) (by simpa using hb.2)
      · simp only [hb, if_false]
        simp
  · intro eng ps e cw ch w hw hne
    simp only [calculate_box_model, hw, hne, if_false]
  · intro eng ps e cw ch hv hh hne
    simp only [calculate_box_model, hh, hne, if_false]
  · intro eng psv e cw ch hh hd
    simp only [calculate_box_model, hh, hd, if_true]
    simp

theorem C2_amended_witness :
    (calculate_box_model engV none (HTMLElement.mk "div" ""
        [("width", "-50px"), ("height", "10px")] []) 800 600).width
      = parse_length "-50px" 800 :=
  C2_amended.2.1 engV none
    (HTMLElement.mk "div" "" [("width", "-50px"), ("height", "10px")] [])
    800 600 "-50px" (by decide) (by decide)

/-- C5, amended: a flex child whose resolved `flex-basis` is `"0"` or
`"0%"` gets base main size exactly 0 in the row item collection of both
engines; in the base `LayoutEngine` the two `flex-basis: 0; flex-grow: 1`
children of a 300px row then end with widths 150 and 150 (the second at
x = 150); in the `UnifiedLayoutEngine` the flex pass likewise advances the
second child to x = 150, but the stored width of each child is the 100px
box-model default for auto-width row-flex children. -/
theorem C5_amended :
    (∀ (child : HTMLElement) (aw g s : PyNum) (b : String),
      flex_props child.computed_style = .ok (g, s, b) → (b = "0" ∨ b = "0%") →
        flex_row_item child aw = .ok ⟨g, s, 0, 0⟩) ∧
    (∀ (child : HTMLElement) (aw g s : PyNum) (b : String),
      flex_props child.computed_style = .ok (g, s, b) → (b = "0" ∨ b = "0%") →
        u_flex_row_item child aw = .ok ⟨g, s, 0, 0⟩) ∧
    ((boxAt (layout c5_eng c5_tree) [0]).width.toQ = 150 ∧
     (boxAt (layout c5_eng c5_tree) [1]).width.toQ = 150 ∧
     (boxAt (layout c5_eng c5_tree) [1]).x.toQ = 150) ∧
    ((uBoxAt (u_layout c5_eng c5_tree) [1]).x.toQ = 150 ∧
     (uBoxAt (u_layout c5_eng c5_tree) [0]).width.toQ = 100) := by
  refine ⟨?_, ?_, ?_, ?_⟩
  · intro child aw g s b hp hb
    rcases hb with rfl | rfl <;> simp +decide [flex_row_item, hp]
  · intro child aw g s b hp hb
    rcases hb with rfl | rfl <;> simp +decide [u_flex_row_item, hp]
  · refine ⟨?_, ?_, ?_⟩
    · have h : (boxAt (layout c5_eng c5_tree) [0]).width.eqv 150 = true := by decide
      simpa using toQ_eq_of_eqv h
    · have h : (boxAt (layout c5_eng c5_tree) [1]).width.eqv 150 = true := by decide
      simpa using toQ_eq_of_eqv h
    · have h : (boxAt (layout c5_eng c5_tree) [1]).x.eqv 150 = true := by decide
      simpa using toQ_eq_of_eqv h
  · refine ⟨?_, ?_⟩
    · have h : (uBoxAt (u_layout c5_eng c5_tree) [1]).x.eqv 150 = true := by decide
      simpa using toQ_eq_of_eqv h
    · have h : (uBoxAt (u_layout c5_eng c5_tree) [0]).width.eqv 100 = true := by decide
      simpa using toQ_eq_of_eqv h

theorem C5_amended_witness :
    flex_row_item (HTMLElement.mk "div" "" [("flex-basis", "0"), ("flex-grow", "1")] [])
        300 = .ok ⟨1, 1, 0, 0⟩ :=
  C5_amended.1 (HTMLElement.mk "div" "" [("flex-basis", "0"), ("flex-grow", "1")] [])
    300 1 1 "0" (by decide) (Or.inl rfl)

/-- C4, amended: when the distributed space and the grow sum are positive,
`LayoutEngine._layout_flex_row` gives each growing item
`base + grow · (remaining/Σgrow)` — the share is added on top of the base —
but `LayoutEngine._layout_flex_column` and both flex directions of the
`UnifiedLayoutEngine` **replace** the size by `grow · (remaining/Σgrow)`;
in all of them `remaining` is the available space minus the bases of the
non-growing items only (growing items' bases are not subtracted), not the
free space of the claim. -/
theorem C4_amended :
    (∀ (items : List FlexItemR) (remaining total_grow : PyNum),
      0 < total_grow → 0 < remaining →
        List.Forall₂ (fun it out =>
          out.final_main.toQ =
            if 0 < it.flex_grow then
              it.base_main.toQ + it.flex_grow.toQ * (remaining.toQ / total_grow.toQ)
            else it.final_main.toQ)
          items (distribute_grow_row items remaining total_grow)) ∧
    (∀ (items : List FlexItemR) (remaining total_grow : PyNum),
      0 < total_grow → 0 < remaining →
        List.Forall₂ (fun it out =>
          out.final_main.toQ =
            if 0 < it.flex_grow then
              it.flex_grow.toQ * (remaining.toQ / total_grow.toQ)
            else it.final_main.toQ)
          items (distribute_grow_column items remaining total_grow)) ∧
    (∀ (items : List FlexItemR) (remaining total_grow : PyNum),
      0 < total_grow → 0 < remaining →
        List.Forall₂ (fun it out =>
          out.final_main.toQ =
            if 0 < it.flex_grow then
              it.flex_grow.toQ * (remaining.toQ / total_grow.toQ)
            else it.final_main.toQ)
          items (u_distribute_grow items remaining total_grow)) := by
  refine ⟨?_, ?_, ?_⟩
  · intro items remaining total_grow htg hrem
    rw [distribute_grow_row, if_pos ⟨htg, hrem⟩]
    rw [List.forall₂_map_right_iff]
    rw [List.forall₂_same]
    intro it _
    by_cases hg : 0 < it.flex_grow
    · rw [if_pos hg, if_pos hg]
      simp
    · rw [if_neg hg, if_neg hg]
  · intro items remaining total_grow htg hrem
    rw [distribute_grow_column, if_pos ⟨htg, hrem⟩]
    rw [List.forall₂_map_right_iff]
    rw [List.forall₂_same]
    intro it _
    by_cases hg : 0 < it.flex_grow
    · rw [if_pos hg, if_pos hg]
      simp
    · rw [if_neg hg, if_neg hg]
  · intro items remaining total_grow htg hrem
    rw [u_distribute_grow, if_pos ⟨htg, hrem⟩]
    rw [List.forall₂_map_right_iff]
    rw [List.forall₂_same]
    intro it _
    by_cases hg : 0 < it.flex_grow
    · rw [if_pos hg, if_pos hg]
      simp
    · rw [if_neg hg, if_neg hg]

/-- The box a non-root `layout` call stores: the box model positioned at
`(parent_x + margin_left, parent_y + margin_top)`. -/
theorem layoutF_box (eng : Engine) {f : Nat} {ps : Option Style}
    {e : HTMLElement} {cw ch px py : PyNum} {t : Laid}
    (h : layoutF eng f ps e cw ch false px py = .ok t) :
    t.box = { calculate_box_model eng ps e cw ch with
              x := px + (calculate_box_model eng ps e cw ch).margin_left,
              y := py + (calculate_box_model eng ps e cw ch).margin_top } := by
  cases f with
  | zero => simp [layoutF] at h
  | succ g =>
    rw [layoutF] at h
    simp only [Bool.false_eq_true, if_false] at h
    cases hk : layout_childrenF eng g e
        { calculate_box_model eng ps e cw ch with
          x := px + (calculate_box_model eng ps e cw ch).margin_left,
          y := py + (calculate_box_model eng ps e cw ch).margin_top }
        ((calculate_box_model eng ps e cw ch).width
          - (calculate_box_model eng ps e cw ch).padding_left
          - (calculate_box_model eng ps e cw ch).padding_right)
        ((calculate_box_model eng ps e cw ch).height
          - (calculate_box_model eng ps e cw ch).padding_top
          - (calculate_box_model eng ps e cw ch).padding_bottom) with
    | error err =>
      rw [hk] at h
      simp at h
    | ok kids =>
      rw [hk] at h
      simp at h
      rw [← h]
      rfl

/-- The placement relation of `_layout_block_children`: each child starts
exactly where the previous one ended (`y + height + margin_bottom`) plus
its own top margin. -/
def blockRel (t1 t2 : Laid) : Prop :=
  t2.box.y.toQ = t1.box.y.toQ + t1.box.height.toQ + t1.box.margin_bottom.toQ
    + t2.box.margin_top.toQ

/-- Chain lemma for the base engine's block layout: the boxes of a
successful `_layout_block_children` run are `blockRel`-chained, and the
first box sits at `current_y + its margin_top`. -/
theorem block_go_chain (eng : Engine) (pstyle : Style) (aw cx : PyNum) :
    ∀ (cs : List HTMLElement) (f : Nat) (cy rem : PyNum) (ts : List Laid),
      block_goF eng f pstyle cs aw cx cy rem = .ok ts →
        (∀ t0 ∈ ts.head?, t0.box.y.toQ = cy.toQ + t0.box.margin_top.toQ) ∧
          List.Chain' blockRel ts := by
  intro cs
  induction cs with
  | nil =>
    intro f cy rem ts h
    cases f with
    | zero => simp [block_goF] at h
    | succ g =>
      rw [block_goF] at h
      simp at h
      subst h
      simp
  | cons c cs' ih =>
    intro f cy rem ts h
    cases f with
    | zero => simp [block_goF] at h
    | succ g =>
      rw [block_goF] at h
      cases hl : layoutF eng g (some pstyle) c aw
          (calculate_child_height eng (some pstyle) c rem) false cx cy with
      | error err =>
        rw [hl] at h
        simp at h
      | ok t =>
        rw [hl] at h
        simp only [except_ok_bind] at h
        cases hr : block_goF eng g pstyle cs' aw cx
            (cy + (t.box.margin_top + t.box.height + t.box.margin_bottom))
            (max 0 (rem - (t.box.margin_top + t.box.height + t.box.margin_bottom))) with
        | error err =>
          rw [hr] at h
          simp at h
        | ok ts' =>
          rw [hr] at h
          simp only [except_ok_bind, except_pure_eq_ok, Except.ok.injEq] at h
          subst h
          obtain ⟨hh, hch⟩ := ih g _ _ _ hr
          have hbox := layoutF_box eng hl
          have hy : t.box.y.toQ = cy.toQ + t.box.margin_top.toQ := by
            rw [hbox]
            simp
          refine ⟨?_, ?_⟩
          · intro t0 ht0
            simp at ht0
            rw [← ht0]
            exact hy
          · rw [List.chain'_cons']
            refine ⟨?_, hch⟩
            intro t2 ht2
            have h2 := hh t2 ht2
            rw [blockRel, h2, hy]
            simp only [PyNum.toQ_add]
            ring

/-- Children in the unified engine's normal flow: default positioning and
no transform (so their stored coordinates are exactly where block flow put
them). -/
def uNormalFlow (c : HTMLElement) : Prop :=
  styleGetD c.computed_style "position" "static" = "static" ∧
    styleGetD c.computed_style "transform" "none" = "none"

theorem u_ultra_geom (s : Style) (b : UBox) :
    (u_apply_ultra_effects s b).x = b.x ∧ (u_apply_ultra_effects s b).y = b.y ∧
      (u_apply_ultra_effects s b).width = b.width ∧
      (u_apply_ultra_effects s b).height = b.height ∧
      (u_apply_ultra_effects s b).margin_top = b.margin_top ∧
      (u_apply_ultra_effects s b).margin_bottom = b.margin_bottom := by
  rw [u_apply_ultra_effects]
  split_ifs <;> simp

theorem u_transforms_none (s : Style) (b : UBox)
    (h : styleGetD s "transform" "none" = "none") :
    u_apply_transforms s b = .ok b := by
  rw [u_apply_transforms, h]
  simp

theorem u_positioning_static (eng : Engine) (s : Style) (b : UBox)
    (h : styleGetD s "position" "static" = "static") :
    u_apply_positioning eng s b = b := by
  rw [u_apply_positioning, h]
  simp

theorem bind_ok_iff {α β : Type} {r : Except PyError α} {f : α → Except PyError β}
    {b : β} : (r >>= f) = .ok b ↔ ∃ a, r = .ok a ∧ f a = .ok b := by
  cases r <;> simp

/-- The geometry a non-root unified `layout` call stores for a normal-flow
element: the box model's fields, at exactly `(parent_x, parent_y)` (no
margin offset). -/
theorem u_layoutF_geom (eng : Engine) {f : Nat} {ps : Option Style}
    {e : HTMLElement} {cw ch px py : PyNum} {t : ULaid}
    (h : u_layoutF eng f ps e cw ch false px py = .ok t)
    (hn : uNormalFlow e) :
    ∃ b, u_box_model eng ps e cw ch = .ok b ∧ t.box.x = px ∧ t.box.y = py ∧
      t.box.height = b.height ∧ t.box.margin_top = b.margin_top ∧
      t.box.margin_bottom = b.margin_bottom := by
  cases f with
  | zero => simp [u_layoutF] at h
  | succ g =>
    rw [u_layoutF] at h
    simp only [Bool.false_eq_true, if_false] at h
    rw [bind_ok_iff] at h
    obtain ⟨b, hb, h⟩ := h
    simp only [pure_bind] at h
    rw [u_positioning_static eng e.computed_style { b with x := px, y := py } hn.1] at h
    rw [u_transforms_none e.computed_style { b with x := px, y := py } hn.2] at h
    simp only [except_ok_bind] at h
    have key : ∃ kids, t = ULaid.mk
        (u_apply_ultra_effects e.computed_style { b with x := px, y := py }) kids := by
      split at h
      · rw [bind_ok_iff] at h
        obtain ⟨kids, hk, hp⟩ := h
        simp only [except_pure_eq_ok, Except.ok.injEq] at hp
        exact ⟨kids, hp.symm⟩
      · split at h
        · split at h
          · rw [bind_ok_iff] at h
            obtain ⟨kids, hk, hp⟩ := h
            simp only [except_pure_eq_ok, Except.ok.injEq] at hp
            exact ⟨kids, hp.symm⟩
          · rw [bind_ok_iff] at h
            obtain ⟨kids, hk, hp⟩ := h
            simp only [except_pure_eq_ok, Except.ok.injEq] at hp
            exact ⟨kids, hp.symm⟩
        · rw [bind_ok_iff] at h
          obtain ⟨kids, hk, hp⟩ := h
          simp only [except_pure_eq_ok, Except.ok.injEq] at hp
          exact ⟨kids, hp.symm⟩
    obtain ⟨kids, ht⟩ := key
    refine ⟨b, hb, ?_⟩
    subst ht
    have hg := u_ultra_geom e.computed_style { b with x := px, y := py }
    simp only [ULaid.box]
    rw [hg.1, hg.2.1, hg.2.2.2.1, hg.2.2.2.2.1, hg.2.2.2.2.2]
    exact ⟨rfl, rfl, rfl, rfl, rfl⟩

/-- The placement relation of `_layout_block_working`: in the unified
engine each laid-out child starts exactly where the previous one's
`height + margin_top + margin_bottom` span ends. -/
def uBlockRel (o1 o2 : Option ULaid) : Prop :=
  ∀ t1 ∈ o1, ∀ t2 ∈ o2,
    t2.box.y.toQ = t1.box.y.toQ + t1.box.margin_top.toQ
      + t1.box.height.toQ + t1.box.margin_bottom.toQ

/-- Chain lemma for the unified engine's block layout: when all children
are in normal flow (static position, no transform), the boxes of a
successful `_layout_block_working` run are `uBlockRel`-chained and the
first box sits exactly at `current_y`. -/
theorem u_block_go_chain (eng : Engine) (pstyle : Style) (aw ah cx : PyNum) :
    ∀ (cs : List HTMLElement) (f : Nat) (cy : PyNum) (ts : List (Option ULaid)),
      (∀ c ∈ cs, uNormalFlow c) →
      u_block_goF eng f pstyle cs aw ah cx cy = .ok ts →
        (∀ o ∈ ts.head?, ∀ t0 ∈ o, t0.box.y = cy) ∧
          List.Chain' uBlockRel ts := by
  intro cs
  induction cs with
  | nil =>
    intro f cy ts _ h
    cases f with
    | zero => simp [u_block_goF] at h
    | succ g =>
      rw [u_block_goF] at h
      simp at h
      subst h
      simp
  | cons c cs' ih =>
    intro f cy ts hnf h
    cases f with
    | zero => simp [u_block_goF] at h
    | succ g =>
      rw [u_block_goF] at h
      cases hl : u_layoutF eng g (some pstyle) c aw
          (u_calculate_auto_height eng c ah) false cx cy with
      | error err =>
        rw [hl] at h
        simp at h
      | ok t =>
        rw [hl] at h
        simp only [except_ok_bind] at h
        cases hr : u_block_goF eng g pstyle cs' aw ah cx
            (cy + t.box.height + t.box.margin_top + t.box.margin_bottom) with
        | error err =>
          rw [hr] at h
          simp at h
        | ok ts' =>
          rw [hr] at h
          simp only [except_ok_bind, except_pure_eq_ok, Except.ok.injEq] at h
          subst h
          have hnfc : uNormalFlow c := hnf c (List.mem_cons_self c cs')
          obtain ⟨b, hb, hx, hy, hh, hmt, hmb⟩ := u_layoutF_geom eng hl hnfc
          obtain ⟨hh2, hch⟩ :=
            ih g _ _ (fun d hd => hnf d (List.mem_cons_of_mem _ hd)) hr
          refine ⟨?_, ?_⟩
          · intro o ho t0 ht0
            simp at ho
            subst ho
            simp at ht0
            subst ht0
            exact hy
          · rw [List.chain'_cons']
            refine ⟨?_, hch⟩
            intro o2 ho2 t1 ht1 t2 ht2
            simp at ht1
            subst ht1
            have h2 := hh2 o2 ho2 t2 ht2
            rw [h2, hy]
            simp only [PyNum.toQ_add]
            ring

/-- C3, amended: block flow places consecutive siblings by a running
cursor, but neither engine satisfies the claimed bound as stated. In the
base engine `B.y = A.y + A.height + A.marginBottom + B.marginTop`, so the
claimed `B.y ≥ A.y + A.marginTop + A.height + A.marginBottom` fails
exactly when `A.marginTop > B.marginTop`; in the unified engine every
normal-flow child sits at the running cursor itself, giving
`B.y = A.y + A.marginTop + A.height + A.marginBottom` exactly. -/
theorem C3_amended :
    (∀ (eng : Engine) (pstyle : Style) (aw cx : PyNum) (cs : List HTMLElement)
        (f : Nat) (cy rem : PyNum) (ts : List Laid),
      block_goF eng f pstyle cs aw cx cy rem = .ok ts →
        List.Chain' blockRel ts) ∧
    (∀ (eng : Engine) (pstyle : Style) (aw ah cx : PyNum) (cs : List HTMLElement)
        (f : Nat) (cy : PyNum) (ts : List (Option ULaid)),
      (∀ c ∈ cs, uNormalFlow c) →
      u_block_goF eng f pstyle cs aw ah cx cy = .ok ts →
        List.Chain' uBlockRel ts) := by
  constructor
  · intro eng pstyle aw cx cs f cy rem ts h
    exact (block_go_chain eng pstyle aw cx cs f cy rem ts h).2
  · intro eng pstyle aw ah cx cs f cy ts hnf h
    exact (u_block_go_chain eng pstyle aw ah cx cs f cy ts hnf h).2

theorem C3_amended_witness :
    (∃ ts, block_goF engV 20 [] c3_tree.children 800 0 0 600 = .ok ts ∧
        List.Chain' blockRel ts) ∧
    (∃ ts, u_block_goF engV 20 [] c3_tree.children 800 600 0 0 = .ok ts ∧
        List.Chain' uBlockRel ts) := by
  constructor
  · have hok : exceptOk (block_goF engV 20 [] c3_tree.children 800 0 0 600)
        = true := by decide
    obtain ⟨ts, hts⟩ := exists_ok_of_exceptOk hok
    exact ⟨ts, hts, C3_amended.1 engV [] 800 0 c3_tree.children 20 0 600 ts hts⟩
  · have hok : exceptOk (u_block_goF engV 20 [] c3_tree.children 800 600 0 0)
        = true := by decide
    obtain ⟨ts, hts⟩ := exists_ok_of_exceptOk hok
    have hnf : ∀ c ∈ c3_tree.children, uNormalFlow c := by
      intro c hc
      simp [c3_tree, HTMLElement.children] at hc
      rcases hc with rfl | rfl <;> exact ⟨rfl, rfl⟩
    exact ⟨ts, hts,
      C3_amended.2 engV [] 800 600 0 c3_tree.children 20 0 ts hnf hts⟩

theorem C4_amended_witness :
    List.Forall₂ (fun it out =>
        out.final_main.toQ =
          if 0 < it.flex_grow then
            it.base_main.toQ + it.flex_grow.toQ * ((300 : PyNum).toQ / (2 : PyNum).toQ)
          else it.final_main.toQ)
      [(⟨1, 1, 100, 100⟩ : FlexItemR), ⟨1, 1, 50, 50⟩]
      (distribute_grow_row [⟨1, 1, 100, 100⟩, ⟨1, 1, 50, 50⟩] 300 2) :=
  C4_amended.1 [⟨1, 1, 100, 100⟩, ⟨1, 1, 50, 50⟩] 300 2 (by decide) (by decide)

/-! ## Claim C10 -/

theorem not_eq_of_isDigit {c d : Char} (h : c.isDigit = true)
    (hd : d.isDigit = false) : ¬(c = d) := by
  intro he
  subst he
  rw [h] at hd
  exact absurd hd (by decide)

theorem pyIsSpace_eq_false_of_isDigit {c : Char} (h : c.isDigit = true) :
    pyIsSpace c = false := by
  rw [pyIsSpace]
  simp only [decide_eq_false_iff_not]
  rintro (rfl | rfl | rfl | rfl | rfl | rfl) <;> exact absurd h (by decide)

theorem dropWhile_eq_self_of {p : Char → Bool} {l : List Char}
    (h : ∀ c ∈ l, p c = false) : l.dropWhile p = l := by
  cases l with
  | nil => rfl
  | cons c t =>
    rw [List.dropWhile_cons, h c (List.mem_cons_self c t)]
    simp

theorem stripChars_eq_self {l : List Char} (h : ∀ c ∈ l, pyIsSpace c = false) :
    stripChars l = l := by
  rw [stripChars, dropWhile_eq_self_of h, dropWhile_eq_self_of]
  · exact List.reverse_reverse l
  · intro c hc
    exact h c (List.mem_reverse.mp hc)

theorem isPrefixOf_append_self : ∀ (l₁ l₂ : List Char),
    l₁.isPrefixOf (l₁ ++ l₂) = true := by
  intro l₁
  induction l₁ with
  | nil => intro l₂; simp [List.isPrefixOf]
  | cons c t ih =>
    intro l₂
    rw [List.cons_append]
    simp [List.isPrefixOf, ih]

theorem endsWithStr_mk_append (l : List Char) (c : Char) :
    endsWithStr (String.mk (l ++ [c])) (String.mk [c]) = true := by
  rw [endsWithStr]
  show ([c].reverse.isPrefixOf (l ++ [c]).reverse) = true
  rw [List.reverse_append]
  exact isPrefixOf_append_self _ _

theorem ftlcGo_digits (ts : List Char) :
    ∀ (ds : List Char) (i : Nat), (∀ c ∈ ds, c.isDigit = true) →
      ftlcGo (ds ++ ',' :: ts) 0 i = some (i + ds.length) := by
  intro ds
  induction ds with
  | nil =>
    intro i _
    rw [List.nil_append, ftlcGo]
    rw [if_neg (by decide), if_neg (by decide), if_pos (by decide)]
    simp
  | cons c ds' ih =>
    intro i hd
    have hc := hd c (List.mem_cons_self c ds')
    rw [List.cons_append, ftlcGo]
    rw [if_neg (not_eq_of_isDigit hc (by decide))]
    rw [if_neg (not_eq_of_isDigit hc (by decide))]
    rw [if_neg (fun hand => (not_eq_of_isDigit hc (by decide)) hand.1)]
    rw [ih (i + 1) (fun d hdm => hd d (List.mem_cons_of_mem _ hdm))]
    simp [List.length_cons]
    omega

theorem length_flatten_replicate (n : Nat) (l : List String) :
    (List.replicate n l).flatten.length = n * l.length := by
  induction n with
  | zero => simp
  | succ m ih =>
    rw [List.replicate_succ, List.flatten_cons, List.length_append, ih,
      Nat.succ_mul]
    omega

/-- C10: `_parse_repeat_function` caps the repetition count — for any
`repeat(N, trackList)` with an integer count `N`, the expansion is exactly
`min(N, 100)` copies of the parsed track list (so every `N > 100` is
silently truncated to 100 copies). -/
theorem C10_repeat_cap (ds ts : List Char) (hne : ds ≠ [])
    (hd : ∀ c ∈ ds, c.isDigit = true) :
    parse_repeat_function
        (String.mk ("repeat(".toList ++ ds ++ ',' :: ts ++ [')'])) =
      (List.replicate (min (digitsToNat ds) 100)
        (split_grid_template (String.mk (stripChars ts)))).flatten ∧
    (parse_repeat_function
        (String.mk ("repeat(".toList ++ ds ++ ',' :: ts ++ [')']))).length =
      min (digitsToNat ds) 100 *
        (split_grid_template (String.mk (stripChars ts))).length := by
  have hsp : ∀ c ∈ ds, pyIsSpace c = false :=
    fun c hc => pyIsSpace_eq_false_of_isDigit (hd c hc)
  have hassoc : "repeat(".toList ++ ds ++ ',' :: ts ++ [')']
      = ("repeat(".toList ++ ds ++ ',' :: ts) ++ [')'] := by
    simp [List.append_assoc]
  have hpre : ("repeat(".toList.isPrefixOf
      (String.mk ("repeat(".toList ++ ds ++ ',' :: ts ++ [')'])).toList) = true :=
    isPrefixOf_append_self _ _
  have hend : endsWithStr
      (String.mk ("repeat(".toList ++ ds ++ ',' :: ts ++ [')'])) ")" = true := by
    rw [show String.mk ("repeat(".toList ++ ds ++ ',' :: ts ++ [')'])
        = String.mk (("repeat(".toList ++ ds ++ ',' :: ts) ++ [')'])
      from congrArg _ hassoc]
    exact endsWithStr_mk_append _ _
  have hcontent :
      (((String.mk ("repeat(".toList ++ ds ++ ',' :: ts ++ [')'])).toList.drop
        7).dropLast) = ds ++ ',' :: ts := by
    show ((("repeat(".toList ++ ds ++ ',' :: ts ++ [')']).drop 7).dropLast)
      = ds ++ ',' :: ts
    have h7 : List.drop 7 ("repeat(".toList ++ ds ++ ',' :: ts ++ [')'])
        = ds ++ ',' :: ts ++ [')'] :=
      List.drop_left ("repeat(".toList) (ds ++ ',' :: ts ++ [')'])
    rw [h7]
    rw [show ds ++ ',' :: ts ++ [')'] = (ds ++ ',' :: ts) ++ [')'] from by
      simp [List.append_assoc]]
    exact List.dropLast_concat
  have hcomma : find_top_level_comma (ds ++ ',' :: ts) = some ds.length := by
    have := ftlcGo_digits ts ds 0 hd
    simpa [find_top_level_comma] using this
  have htake : (ds ++ ',' :: ts).take ds.length = ds := List.take_left _ _
  have hdropc : (ds ++ ',' :: ts).drop (ds.length + 1) = ts := by
    rw [List.drop_append]
    rfl
  have hstrip : stripChars ds = ds := stripChars_eq_self hsp
  have hmk : (String.mk ds).toList = ds := rfl
  have hdigit : pyIsDigitStr (String.mk ds) = true := by
    rw [pyIsDigitStr]
    simp only [decide_eq_true_eq]
    refine ⟨?_, ?_⟩
    · intro habs
      rw [hmk] at habs
      exact hne (List.isEmpty_iff.mp habs)
    · rw [hmk]
      exact List.all_eq_true.mpr (fun c hc => hd c hc)
  have hmain : parse_repeat_function
      (String.mk ("repeat(".toList ++ ds ++ ',' :: ts ++ [')'])) =
      (List.replicate (min (digitsToNat ds) 100)
        (split_grid_template (String.mk (stripChars ts)))).flatten := by
    unfold parse_repeat_function
    rw [if_neg (not_not_intro ⟨hpre, hend⟩)]
    rw [hcontent]
    simp only [hcomma, htake, hstrip, hdropc, hdigit, hmk, eq_self_iff_true,
      if_true]
  refine ⟨hmain, ?_⟩
  rw [hmain, length_flatten_replicate]

theorem C10_repeat_cap_witness :
    parse_repeat_function
        (String.mk ("repeat(".toList ++ ['1', '5', '0'] ++ ',' :: "1fr".toList
          ++ [')'])) =
      (List.replicate (min (digitsToNat ['1', '5', '0']) 100)
        (split_grid_template (String.mk (stripChars "1fr".toList)))).flatten ∧
    (parse_repeat_function
        (String.mk ("repeat(".toList ++ ['1', '5', '0'] ++ ',' :: "1fr".toList
          ++ [')']))).length =
      min (digitsToNat ['1', '5', '0']) 100 *
        (split_grid_template (String.mk (stripChars "1fr".toList))).length :=
  C10_repeat_cap ['1', '5', '0'] "1fr".toList (by decide) (by decide)

/-! ## Claim C1, amended part: a well-formedness condition under which
`layout()` does succeed on every element -/

/-- The flex basis string the flex loops end up using: the `flex-basis`
property, overridden by the third part of the `flex` shorthand. -/
def flexBasisOf (cs : Style) : String :=
  match styleGet cs "flex" with
  | none => styleGetD cs "flex-basis" "auto"
  | some fv =>
    let parts := pySplitWs fv
    if parts.length ≥ 3 then parts.getD 2 "" else styleGetD cs "flex-basis" "auto"

/-- The numeric parts of a `flex` shorthand parse with `float(...)`. -/
def flexShorthandOk (cs : Style) : Bool :=
  match styleGet cs "flex" with
  | none => true
  | some fv =>
    let parts := pySplitWs fv
    (if parts.length ≥ 1 then exceptOk (tryFloat (parts.getD 0 "")) else true) &&
    (if parts.length ≥ 2 then exceptOk (tryFloat (parts.getD 1 "")) else true)

/-- Every bare `float(...)` the flex loops may run on this style succeeds:
`flex-grow`, `flex-shrink`, the `flex` shorthand parts, and a `…px` flex
basis. -/
def styleFlexOk (cs : Style) : Bool :=
  exceptOk (tryFloat (styleGetD cs "flex-grow" "0")) &&
  (exceptOk (tryFloat (styleGetD cs "flex-shrink" "1")) &&
  (flexShorthandOk cs &&
  (if endsWithStr (flexBasisOf cs) "px" then
    exceptOk (tryFloat (dropRightStr (flexBasisOf cs) 2)) else true)))

mutual

/-- Every element of the tree satisfies `styleFlexOk`. -/
def treeOkE : HTMLElement → Bool
  | .mk _ _ cs children => styleFlexOk cs && treeOkL children

def treeOkL : List HTMLElement → Bool
  | [] => true
  | c :: cs => treeOkE c && treeOkL cs

end

mutual

/-- The layout result has exactly the shape of the element tree: one box
per visited element, children in source order. -/
def shapeE : HTMLElement → Laid → Bool
  | .mk _ _ _ cs, .mk _ ts => shapeL cs ts

def shapeL : List HTMLElement → List Laid → Bool
  | [], [] => true
  | c :: cs, t :: ts => shapeE c t && shapeL cs ts
  | _, _ => false

end

theorem sizeE_children (e : HTMLElement) : sizeE e = 1 + sizeL e.children := by
  cases e with
  | mk a b c cs =>
    rw [sizeE]
    rfl

theorem sizeL_cons (c : HTMLElement) (cs : List HTMLElement) :
    sizeL (c :: cs) = 1 + sizeE c + sizeL cs := by
  rw [sizeL]

theorem one_le_sizeE (e : HTMLElement) : 1 ≤ sizeE e := by
  rw [sizeE_children e]
  omega

theorem treeOkE_children {e : HTMLElement} (h : treeOkE e = true) :
    treeOkL e.children = true := by
  cases e with
  | mk a b c cs =>
    rw [treeOkE] at h
    exact (Bool.and_eq_true _ _ |>.mp h).2

theorem styleFlexOk_of_treeOkE {e : HTMLElement} (h : treeOkE e = true) :
    styleFlexOk e.computed_style = true := by
  cases e with
  | mk a b c cs =>
    rw [treeOkE] at h
    exact (Bool.and_eq_true _ _ |>.mp h).1

theorem treeOkL_cons {c : HTMLElement} {cs : List HTMLElement}
    (h : treeOkL (c :: cs) = true) : treeOkE c = true ∧ treeOkL cs = true := by
  rw [treeOkL] at h
  exact Bool.and_eq_true _ _ |>.mp h

theorem exists_shape_of_kids {m : Except PyError (List Laid)} {B : LayoutBox}
    {e : HTMLElement} (h : ∃ ts, m = .ok ts ∧ shapeL e.children ts = true) :
    ∃ t, (m >>= fun kids => pure (Laid.mk B kids)) = .ok t
      ∧ shapeE e t = true := by
  obtain ⟨ts, hm, hs⟩ := h
  refine ⟨Laid.mk B ts, ?_, ?_⟩
  · rw [hm]
    rfl
  · cases e with
    | mk a b c cs =>
      rw [shapeE]
      exact hs

theorem exists_shape_bind {mE : Except PyError Laid}
    {k : Laid → Except PyError (List Laid)} {c : HTMLElement}
    {cs : List HTMLElement}
    (hE : ∃ t, mE = .ok t ∧ shapeE c t = true)
    (hK : ∀ t, ∃ ts, k t = .ok ts ∧ shapeL cs ts = true) :
    ∃ r, (mE >>= fun t => k t >>= fun ts => pure (t :: ts)) = .ok r
      ∧ shapeL (c :: cs) r = true := by
  obtain ⟨t, hmE, hst⟩ := hE
  obtain ⟨ts, hk, hs⟩ := hK t
  refine ⟨t :: ts, ?_, ?_⟩
  · rw [hmE]
    simp only [except_ok_bind]
    rw [hk]
    rfl
  · rw [shapeL, hst, hs]
    rfl

theorem flex_props_ok {cs : Style} (h : styleFlexOk cs = true) :
    ∃ g s, flex_props cs = .ok (g, s, flexBasisOf cs) := by
  rw [styleFlexOk] at h
  simp only [Bool.and_eq_true] at h
  obtain ⟨h1, h2, h3, _h4⟩ := h
  obtain ⟨g0, hg0⟩ := exists_ok_of_exceptOk h1
  obtain ⟨s0, hs0⟩ := exists_ok_of_exceptOk h2
  unfold flex_props
  rw [hg0]
  simp only [except_ok_bind]
  rw [hs0]
  simp only [except_ok_bind]
  cases hflex : styleGet cs "flex" with
  | none =>
    simp only [hflex]
    refine ⟨g0, s0, ?_⟩
    simp only [flexBasisOf, hflex]
    rfl
  | some fv =>
    rw [flexShorthandOk, hflex] at h3
    simp only [Bool.and_eq_true] at h3
    obtain ⟨h31, h32⟩ := h3
    simp only [flexBasisOf, hflex]
    by_cases hp1 : (pySplitWs fv).length ≥ 1
    · rw [if_pos hp1]
      rw [if_pos hp1] at h31
      obtain ⟨g1, hg1⟩ := exists_ok_of_exceptOk h31
      rw [hg1]
      simp only [except_ok_bind]
      by_cases hp2 : (pySplitWs fv).length ≥ 2
      · rw [if_pos hp2]
        rw [if_pos hp2] at h32
        obtain ⟨s1, hs1⟩ := exists_ok_of_exceptOk h32
        rw [hs1]
        simp only [except_ok_bind]
        exact ⟨g1, s1, rfl⟩
      · rw [if_neg hp2]
        simp only [except_pure_eq_ok, except_ok_bind]
        exact ⟨g1, s0, rfl⟩
    · rw [if_neg hp1]
      simp only [except_pure_eq_ok, except_ok_bind]
      by_cases hp2 : (pySplitWs fv).length ≥ 2
      · rw [if_pos hp2]
        rw [if_pos hp2] at h32
        obtain ⟨s1, hs1⟩ := exists_ok_of_exceptOk h32
        rw [hs1]
        simp only [except_ok_bind]
        exact ⟨g0, s1, rfl⟩
      · rw [if_neg hp2]
        exact ⟨g0, s0, rfl⟩

theorem flex_row_item_ok {child : HTMLElement}
    (h : styleFlexOk child.computed_style = true) (aw : PyNum) :
    ∃ it, flex_row_item child aw = .ok it := by
  have h4 : (if endsWithStr (flexBasisOf child.computed_style) "px" then
      exceptOk (tryFloat (dropRightStr (flexBasisOf child.computed_style) 2))
    else true) = true := by
    rw [styleFlexOk] at h
    simp only [Bool.and_eq_true] at h
    exact h.2.2.2
  obtain ⟨g, s, hp⟩ := flex_props_ok h
  simp only [flex_row_item]
  rw [hp]
  simp only [except_ok_bind]
  split_ifs with h1 h2
  · rw [if_pos h2] at h4
    obtain ⟨v, hv⟩ := exists_ok_of_exceptOk h4
    rw [hv]
    exact ⟨_, rfl⟩
  all_goals exact ⟨_, rfl⟩

theorem flex_col_item_ok (eng : Engine) (pstyle : Style) {child : HTMLElement}
    (h : styleFlexOk child.computed_style = true) (ah : PyNum) :
    ∃ it, flex_col_item eng pstyle child ah = .ok it := by
  have h4 : (if endsWithStr (flexBasisOf child.computed_style) "px" then
      exceptOk (tryFloat (dropRightStr (flexBasisOf child.computed_style) 2))
    else true) = true := by
    rw [styleFlexOk] at h
    simp only [Bool.and_eq_true] at h
    exact h.2.2.2
  obtain ⟨g, s, hp⟩ := flex_props_ok h
  simp only [flex_col_item]
  rw [hp]
  simp only [except_ok_bind]
  split_ifs with h1
  · rw [if_pos h1.2] at h4
    obtain ⟨v, hv⟩ := exists_ok_of_exceptOk h4
    rw [hv]
    exact ⟨_, rfl⟩
  all_goals exact ⟨_, rfl⟩

theorem flex_row_items_ok : ∀ {cs : List HTMLElement}, treeOkL cs = true →
    ∀ aw, ∃ items, flex_row_items cs aw = .ok items := by
  intro cs
  induction cs with
  | nil =>
    intro _ aw
    exact ⟨[], rfl⟩
  | cons c cs' ih =>
    intro hok aw
    obtain ⟨hokc, hokcs⟩ := treeOkL_cons hok
    obtain ⟨it, hit⟩ := flex_row_item_ok (styleFlexOk_of_treeOkE hokc) aw
    obtain ⟨rest, hrest⟩ := ih hokcs aw
    refine ⟨it :: rest, ?_⟩
    rw [flex_row_items, hit]
    simp only [except_ok_bind]
    rw [hrest]
    rfl

theorem flex_col_items_ok (eng : Engine) (pstyle : Style) :
    ∀ {cs : List HTMLElement}, treeOkL cs = true →
    ∀ ah, ∃ items, flex_col_items eng pstyle cs ah = .ok items := by
  intro cs
  induction cs with
  | nil =>
    intro _ ah
    exact ⟨[], rfl⟩
  | cons c cs' ih =>
    intro hok ah
    obtain ⟨hokc, hokcs⟩ := treeOkL_cons hok
    obtain ⟨it, hit⟩ := flex_col_item_ok eng pstyle (styleFlexOk_of_treeOkE hokc) ah
    obtain ⟨rest, hrest⟩ := ih hokcs ah
    refine ⟨it :: rest, ?_⟩
    rw [flex_col_items, hit]
    simp only [except_ok_bind]
    rw [hrest]
    rfl

/-- The fuelled success induction for the whole base-engine layout pass:
with enough fuel and `treeOkE`, every entry point returns `.ok` with a
result of the same shape as its input. -/
theorem layout_success (eng : Engine) : ∀ f : Nat,
    (∀ (ps : Option Style) (e : HTMLElement) (cw ch : PyNum) (rt : Bool)
        (px py : PyNum), treeOkE e = true → 4 * sizeE e ≤ f →
      ∃ t, layoutF eng f ps e cw ch rt px py = .ok t ∧ shapeE e t = true) ∧
    (∀ (e : HTMLElement) (box : LayoutBox) (aw ah : PyNum),
        treeOkL e.children = true → 4 * sizeL e.children + 3 ≤ f →
      ∃ ts, layout_childrenF eng f e box aw ah = .ok ts
        ∧ shapeL e.children ts = true) ∧
    (∀ (e : HTMLElement) (box : LayoutBox) (aw ah : PyNum),
        treeOkL e.children = true → 4 * sizeL e.children + 2 ≤ f →
      ∃ ts, layout_flex_rowF eng f e box aw ah = .ok ts
        ∧ shapeL e.children ts = true) ∧
    (∀ (e : HTMLElement) (box : LayoutBox) (aw ah : PyNum),
        treeOkL e.children = true → 4 * sizeL e.children + 2 ≤ f →
      ∃ ts, layout_flex_columnF eng f e box aw ah = .ok ts
        ∧ shapeL e.children ts = true) ∧
    (∀ (pstyle : Style) (cs : List HTMLElement) (ws : List PyNum)
        (ah cy cx : PyNum), treeOkL cs = true → 4 * sizeL cs + 1 ≤ f →
      ∃ ts, flex_row_placeF eng f pstyle cs ws ah cy cx = .ok ts
        ∧ shapeL cs ts = true) ∧
    (∀ (pstyle : Style) (cs : List HTMLElement) (hs : List PyNum)
        (aw cx cy : PyNum), treeOkL cs = true → 4 * sizeL cs + 1 ≤ f →
      ∃ ts, flex_col_placeF eng f pstyle cs hs aw cx cy = .ok ts
        ∧ shapeL cs ts = true) ∧
    (∀ (pstyle : Style) (cs : List HTMLElement) (aw cx cy rh : PyNum),
        treeOkL cs = true → 4 * sizeL cs + 1 ≤ f →
      ∃ ts, block_goF eng f pstyle cs aw cx cy rh = .ok ts
        ∧ shapeL cs ts = true) ∧
    (∀ (pstyle : Style) (cs : List HTMLElement)
        (aw ah cox cux cy lh : PyNum), treeOkL cs = true →
        4 * sizeL cs + 1 ≤ f →
      ∃ ts, inline_goF eng f pstyle cs aw ah cox cux cy lh = .ok ts
        ∧ shapeL cs ts = true) := by
  intro f
  induction f with
  | zero =>
    refine ⟨?_, ?_, ?_, ?_, ?_, ?_, ?_, ?_⟩
    · intro ps e cw ch rt px py _ hb
      have := one_le_sizeE e
      exact absurd hb (by omega)
    · intro e box aw ah _ hb
      exact absurd hb (by omega)
    · intro e box aw ah _ hb
      exact absurd hb (by omega)
    · intro e box aw ah _ hb
      exact absurd hb (by omega)
    · intro pstyle cs ws ah cy cx _ hb
      exact absurd hb (by omega)
    · intro pstyle cs hs aw cx cy _ hb
      exact absurd hb (by omega)
    · intro pstyle cs aw cx cy rh _ hb
      exact absurd hb (by omega)
    · intro pstyle cs aw ah cox cux cy lh _ hb
      exact absurd hb (by omega)
  | succ f ih =>
    obtain ⟨ihE, ihC, ihR, ihCo, ihRP, ihCP, ihB, ihI⟩ := ih
    refine ⟨?_, ?_, ?_, ?_, ?_, ?_, ?_, ?_⟩
    · -- layoutF
      intro ps e cw ch rt px py hok hb
      have hokL : treeOkL e.children = true := treeOkE_children hok
      have hsz : sizeE e = 1 + sizeL e.children := sizeE_children e
      rw [layoutF]
      apply exists_shape_of_kids
      exact ihC e _ _ _ hokL (by omega)
    · -- layout_childrenF
      intro e box aw ah hok hb
      rw [layout_childrenF]
      by_cases hie : e.children.isEmpty = true
      · rw [if_pos hie]
        refine ⟨[], rfl, ?_⟩
        rw [List.isEmpty_iff.mp hie]
        rfl
      · rw [if_neg hie]
        by_cases hfx : styleGetD e.computed_style "display" "block" = "flex"
        · rw [if_pos hfx]
          by_cases hdir :
              styleGetD e.computed_style "flex-direction" "row" = "row"
          · rw [if_pos hdir]
            exact ihR e _ _ _ hok (by omega)
          · rw [if_neg hdir]
            exact ihCo e _ _ _ hok (by omega)
        · rw [if_neg hfx]
          by_cases hinl : (e.children.any (fun c =>
              let d := styleGetD c.computed_style "display" "block"
              d = "inline" ∨ d = "inline-block")) = true
          · rw [if_pos hinl]
            exact ihI e.computed_style e.children _ _ _ _ _ _ hok (by omega)
          · rw [if_neg hinl]
            exact ihB e.computed_style e.children _ _ _ _ hok (by omega)
    · -- layout_flex_rowF
      intro e box aw ah hok hb
      rw [layout_flex_rowF]
      by_cases hie : e.children.isEmpty = true
      · rw [if_pos hie]
        refine ⟨[], rfl, ?_⟩
        rw [List.isEmpty_iff.mp hie]
        rfl
      · rw [if_neg hie]
        obtain ⟨items, hitems⟩ := flex_row_items_ok hok aw
        rw [hitems]
        simp only [except_ok_bind]
        exact ihRP e.computed_style e.children _ _ _ _ hok (by omega)
    · -- layout_flex_columnF
      intro e box aw ah hok hb
      rw [layout_flex_columnF]
      by_cases hie : e.children.isEmpty = true
      · rw [if_pos hie]
        refine ⟨[], rfl, ?_⟩
        rw [List.isEmpty_iff.mp hie]
        rfl
      · rw [if_neg hie]
        obtain ⟨items, hitems⟩ := flex_col_items_ok eng e.computed_style hok ah
        rw [hitems]
        simp only [except_ok_bind]
        exact ihCP e.computed_style e.children _ _ _ _ hok (by omega)
    · -- flex_row_placeF
      intro pstyle cs ws ah cy cx hok hb
      cases cs with
      | nil =>
        rw [flex_row_placeF]
        exact ⟨[], rfl, rfl⟩
      | cons c cs' =>
        have hsz : sizeL (c :: cs') = 1 + sizeE c + sizeL cs' :=
          sizeL_cons c cs'
        obtain ⟨hokc, hokcs⟩ := treeOkL_cons hok
        rw [flex_row_placeF]
        apply exists_shape_bind
        · exact ihE (some pstyle) c _ _ false _ _ hokc (by omega)
        · exact fun t => ihRP pstyle cs' _ _ _ _ hokcs (by omega)
    · -- flex_col_placeF
      intro pstyle cs hs aw cx cy hok hb
      cases cs with
      | nil =>
        rw [flex_col_placeF]
        exact ⟨[], rfl, rfl⟩
      | cons c cs' =>
        have hsz : sizeL (c :: cs') = 1 + sizeE c + sizeL cs' :=
          sizeL_cons c cs'
        obtain ⟨hokc, hokcs⟩ := treeOkL_cons hok
        rw [flex_col_placeF]
        apply exists_shape_bind
        · exact ihE (some pstyle) c _ _ false _ _ hokc (by omega)
        · exact fun t => ihCP pstyle cs' _ _ _ _ hokcs (by omega)
    · -- block_goF
      intro pstyle cs aw cx cy rh hok hb
      cases cs with
      | nil =>
        rw [block_goF]
        exact ⟨[], rfl, rfl⟩
      | cons c cs' =>
        have hsz : sizeL (c :: cs') = 1 + sizeE c + sizeL cs' :=
          sizeL_cons c cs'
        obtain ⟨hokc, hokcs⟩ := treeOkL_cons hok
        rw [block_goF]
        apply exists_shape_bind
        · exact ihE (some pstyle) c _ _ false _ _ hokc (by omega)
        · exact fun t => ihB pstyle cs' _ _ _ _ hokcs (by omega)
    · -- inline_goF
      intro pstyle cs aw ah cox cux cy lh hok hb
      cases cs with
      | nil =>
        rw [inline_goF]
        exact ⟨[], rfl, rfl⟩
      | cons c cs' =>
        have hsz : sizeL (c :: cs') = 1 + sizeE c + sizeL cs' :=
          sizeL_cons c cs'
        obtain ⟨hokc, hokcs⟩ := treeOkL_cons hok
        rw [inline_goF]
        by_cases hdisp :
            styleGetD c.computed_style "display" "block" = "inline-block"
        · rw [if_pos hdisp]
          apply exists_shape_bind
          · exact ihE (some pstyle) c _ _ false _ _ hokc (by omega)
          · exact fun t => ihI pstyle cs' _ _ _ _ _ _ hokcs (by omega)
        · rw [if_neg hdisp]
          apply exists_shape_bind
          · exact ihE (some pstyle) c _ _ false _ _ hokc (by omega)
          · exact fun t => ihI pstyle cs' _ _ _ _ _ _ hokcs (by omega)

/-- C1, amended: `layout()` is **not** total on arbitrary style maps (a
non-numeric `flex-grow` raises `ValueError`), but whenever every element's
flex-related properties parse (`treeOkE`, trivially true for styles that
declare no flex properties), `layout()` returns normally and its result
assigns a box to every visited element: it has exactly the shape of the
input tree. All other malformed style values (unparseable widths, heights,
paddings, …) are indeed resolved to safe defaults and never raise. -/
theorem C1_amended (eng : Engine) (e : HTMLElement) (h : treeOkE e = true) :
    ∃ t, layout eng e = .ok t ∧ shapeE e t = true := by
  obtain ⟨t, ht, hs⟩ := (layout_success eng (layoutFuel e)).1 none e
    eng.viewport_width eng.viewport_height true 0 0 h
    (by rw [layoutFuel]; omega)
  exact ⟨t, ht, hs⟩

theorem C1_amended_witness :
    treeOkE c1_good = true ∧
      ∃ t, layout engV c1_good = .ok t ∧ shapeE c1_good t = true :=
  ⟨by decide, C1_amended engV c1_good (by decide)⟩

end PMG
